import Mathlib

/-!
Verification of the oapi-codegen schema-to-type compiler.

This file shallowly embeds the core of the repository in Lean 4:

* the adapter document model of pkg/openapi/adapter.go (schemas,
  references, components, path items), with pointer identity of schema
  nodes represented by an explicit nodeId field;
* the schema compiler of pkg/codegen/schema.go (GenerateGoSchema,
  oapiSchemaToGoType, generateUnion, AddProperty, GenStructFromSchema,
  Property.GoTypeDef and friends);
* the allOf merger of pkg/codegen/merge_schemas.go (mergeSchemas,
  mergeOpenapiSchemas, valueWithPropagatedRef);
* the filter-and-prune pass of pkg/codegen/prune.go (walkSwagger and the
  per-kind walkers, findComponentRefs, removeOrphanedComponents,
  pruneUnusedComponents).

Conventions used throughout the embedding:

* Go maps become association lists; where Go ranges over a map in
  unspecified order, the embedding iterates in list order (a fixed
  determinization of the unspecified Go order).
* The process-global globalState.options is passed explicitly as an
  Options value.
* Recursive traversals whose termination in Go rests on pointer-keyed
  visited sets (or on the finiteness of the wrapped document) take an
  explicit fuel argument; all theorems either hold for every fuel or
  supply a concretely sufficient fuel.
* Fallible Go functions returning (value, error) become Except String.
* Helper functions of the repository that are not among the provided
  sources (utility name synthesizers and similar) are modelled from the
  specification; each such definition carries a doc comment starting
  with "Modelled from the spec:".
-/

namespace Oapi

/-! ### Small string and list helpers -/

/-- Characters considered valid identifier material by the sanitizers. -/
def isIdentChar (c : Char) : Bool :=
  c.isAlpha || c.isDigit || c == '_'

/-- List-level prefix test on characters, used by the string helpers. -/
def listIsPrefix : List Char → List Char → Bool
  | [], _ => true
  | _ :: _, [] => false
  | p :: ps, c :: cs => p == c && listIsPrefix ps cs

/-- List-level prefix removal: some rest when the prefix matches. -/
def listTrim : List Char → List Char → Option (List Char)
  | [], cs => some cs
  | _ :: _, [] => none
  | p :: ps, c :: cs => if p == c then listTrim ps cs else none

/-- Substring containment on character lists. -/
def listContainsSub (pat : List Char) : List Char → Bool
  | [] => listIsPrefix pat []
  | c :: cs => listIsPrefix pat (c :: cs) || listContainsSub pat cs

/-- strings.Contains. -/
def strContains (s pat : String) : Bool :=
  listContainsSub pat.data s.data

/-- strings.HasPrefix. -/
def strHasPre (s pre : String) : Bool :=
  listIsPrefix pre.data s.data

/-- strings.TrimPrefix: drops the prefix when present, else returns s. -/
def strTrimPre (s pre : String) : String :=
  match listTrim pre.data s.data with
  | some rest => ⟨rest⟩
  | none => s

/-- strings.Join with a separator. -/
def strJoin (sep : String) : List String → String
  | [] => ""
  | [a] => a
  | a :: rest => a ++ sep ++ strJoin sep rest

/-- strings.Split on a single character. -/
def splitOnChar (c : Char) (s : String) : List String :=
  (s.data.splitOnP (· == c)).map (fun l => ⟨l⟩)

/-- Go fmt rendering of a []string value, as in "[a b]". -/
def goStrSliceRepr (l : List String) : String :=
  "[" ++ strJoin " " l ++ "]"

/-- Association list lookup (Go map read). -/
def alookup {α : Type} (l : List (String × α)) (k : String) : Option α :=
  match l with
  | [] => none
  | (k', v) :: rest => if k' == k then some v else alookup rest k

/-- Association list insert-or-replace in place (Go map write / orderedmap Set). -/
def aset {α : Type} (l : List (String × α)) (k : String) (v : α) : List (String × α) :=
  match l with
  | [] => [(k, v)]
  | (k', v') :: rest => if k' == k then (k, v) :: rest else (k', v') :: aset rest k v

/-- Keys of an association list. -/
def akeys {α : Type} (l : List (String × α)) : List String :=
  l.map Prod.fst

/-- Insertion of a string into a sorted list, ordering by the default string order. -/
def strInsertSorted (x : String) : List String → List String
  | [] => [x]
  | y :: ys => if x ≤ y then x :: y :: ys else y :: strInsertSorted x ys

/-- Insertion sort on strings, used to model the sorted-key iteration helpers. -/
def strSort (l : List String) : List String :=
  l.foldr strInsertSorted []

/-! ### Extension values (extension.go)

Extension values arrive in Go as interface{}; the direct-assignment arm
of decodeYamlNode accepts strings, bools, string slices and string maps.
The yaml.Node arm is not representable here, so the model covers the
plain-value forms (the ones the claims exercise). -/

inductive ExtVal where
  | str (s : String)
  | boolVal (b : Bool)
  | strList (l : List String)
  | strMap (m : List (String × String))
  deriving DecidableEq, Repr

/-- decodeYamlNode into a string target (direct-assignment arm). -/
def extDecodeString : ExtVal → Except String String
  | .str s => .ok s
  | v => .error ("unsupported type conversion to string: " ++ (match v with | .boolVal _ => "bool" | .strList _ => "slice" | _ => "map"))

/-- decodeYamlNode into a bool target (direct-assignment arm). -/
def extDecodeBool : ExtVal → Except String Bool
  | .boolVal b => .ok b
  | _ => .error "unsupported type conversion to bool"

/-- decodeYamlNode into a []string target (direct-assignment arm). -/
def extDecodeStrList : ExtVal → Except String (List String)
  | .strList l => .ok l
  | _ => .error "unsupported type conversion to string slice"

/-- decodeYamlNode into a map[string]string target (direct-assignment arm). -/
def extDecodeStrMap : ExtVal → Except String (List (String × String))
  | .strMap m => .ok m
  | _ => .error "unsupported type conversion to string map"

def extPropGoType : String := "x-go-type"
def extPropGoTypeSkipOptionalPointer : String := "x-go-type-skip-optional-pointer"
def extGoName : String := "x-go-name"
def extGoTypeName : String := "x-go-type-name"
def extPropGoJsonIgnore : String := "x-go-json-ignore"
def extPropOmitEmpty : String := "x-omitempty"
def extPropOmitZero : String := "x-omitzero"
def extPropExtraTags : String := "x-oapi-codegen-extra-tags"
def extEnumVarNames : String := "x-enum-varnames"
def extEnumNames : String := "x-enumNames"
def extDeprecationReason : String := "x-deprecated-reason"
def extOapiCodegenOnlyHonourGoName : String := "x-oapi-codegen-only-honour-go-name"

def extString (v : ExtVal) : Except String String := extDecodeString v

def extTypeName (v : ExtVal) : Except String String := extString v

def extParsePropGoTypeSkipOptionalPointer (v : ExtVal) : Except String Bool := extDecodeBool v

def extParseGoFieldName (v : ExtVal) : Except String String := extString v

def extParseOmitEmpty (v : ExtVal) : Except String Bool := extDecodeBool v

def extParseOmitZero (v : ExtVal) : Except String Bool := extDecodeBool v

def extExtraTags (v : ExtVal) : Except String (List (String × String)) := extDecodeStrMap v

def extParseGoJsonIgnore (v : ExtVal) : Except String Bool := extDecodeBool v

def extParseEnumVarNames (v : ExtVal) : Except String (List String) := extDecodeStrList v

def extParseDeprecationReason (v : ExtVal) : Except String String := extString v

def extParseOapiCodegenOnlyHonourGoName (v : ExtVal) : Except String Bool := extDecodeBool v

/-! ### Enum literals

Schema.Enum() decodes the native yaml literal values; codegen then prints
them with fmt.Sprintf("%v", v). -/

inductive Lit where
  | str (s : String)
  | int (n : Int)
  | boolLit (b : Bool)
  deriving DecidableEq, Repr

/-- fmt.Sprintf("%v", v) for decoded enum literal values. -/
def Lit.sprintv : Lit → String
  | .str s => s
  | .int n => toString n
  | .boolLit true => "true"
  | .boolLit false => "false"

/-! ### The adapter schema model (pkg/openapi/adapter.go)

openapi.Schema and openapi.SchemaRef as read by the codegen core.  The
nodeId field stands for the Go pointer identity of the underlying
base.Schema node (the key of the visited maps).  Nil Go slices and nil
maps that the code distinguishes from empty ones are modelled as Option;
nil-vs-empty distinctions the code never observes are collapsed. -/

/-- Input discriminator (openapi.Discriminator); MappingToMap iterates in
list order here, a determinization of the unspecified Go map order. -/
structure DiscIn where
  propertyName : String
  mapping : List (String × String)
  deriving DecidableEq, Repr

/-- The non-recursive attributes of an openapi.Schema. -/
structure SAttrs where
  nodeId : Nat := 0
  typ : List String := []
  format : String := ""
  nullable : Bool := false
  required : List String := []
  addlHas : Bool := false
  enum : List Lit := []
  description : String := ""
  extensions : List (String × ExtVal) := []
  readOnly : Bool := false
  writeOnly : Bool := false
  deprecated : Bool := false
  discriminator : Option DiscIn := none
  deriving DecidableEq, Repr

mutual
inductive OSchema where
  | mk (sattrs : SAttrs)
       (properties : Option (List (String × ORef)))
       (addlSchema : Option ORef)
       (items : Option ORef)
       (allOf : Option (List ORef))
       (oneOf : Option (List ORef))
       (anyOf : Option (List ORef)) : OSchema
inductive ORef where
  | mk (ref : String) (value : Option OSchema)
       (oneOf : List ORef) (anyOf : List ORef) (allOf : List ORef)
       (nt : Option ORef) (items : Option ORef)
       (addlSchema : Option ORef) : ORef
end

def OSchema.sattrs : OSchema → SAttrs
  | .mk a _ _ _ _ _ _ => a

def OSchema.properties : OSchema → Option (List (String × ORef))
  | .mk _ p _ _ _ _ _ => p

def OSchema.addlSchema : OSchema → Option ORef
  | .mk _ _ a _ _ _ _ => a

def OSchema.items : OSchema → Option ORef
  | .mk _ _ _ i _ _ _ => i

def OSchema.allOf : OSchema → Option (List ORef)
  | .mk _ _ _ _ a _ _ => a

def OSchema.oneOf : OSchema → Option (List ORef)
  | .mk _ _ _ _ _ o _ => o

def OSchema.anyOf : OSchema → Option (List ORef)
  | .mk _ _ _ _ _ _ a => a

/-- Replace the non-recursive attributes of a schema node. -/
def OSchema.withAttrs : OSchema → (SAttrs → SAttrs) → OSchema
  | .mk a p ad i al o an, f => .mk (f a) p ad i al o an

def OSchema.typ (s : OSchema) : List String := s.sattrs.typ
def OSchema.format (s : OSchema) : String := s.sattrs.format
def OSchema.nullable (s : OSchema) : Bool := s.sattrs.nullable
def OSchema.required (s : OSchema) : List String := s.sattrs.required
def OSchema.enum (s : OSchema) : List Lit := s.sattrs.enum
def OSchema.description (s : OSchema) : String := s.sattrs.description
def OSchema.extensions (s : OSchema) : List (String × ExtVal) := s.sattrs.extensions
def OSchema.discriminator (s : OSchema) : Option DiscIn := s.sattrs.discriminator
def OSchema.nodeId (s : OSchema) : Nat := s.sattrs.nodeId

def ORef.ref : ORef → String
  | .mk r _ _ _ _ _ _ _ => r

def ORef.value : ORef → Option OSchema
  | .mk _ v _ _ _ _ _ _ => v

def ORef.oneOf : ORef → List ORef
  | .mk _ _ o _ _ _ _ _ => o

def ORef.anyOf : ORef → List ORef
  | .mk _ _ _ a _ _ _ _ => a

def ORef.allOf : ORef → List ORef
  | .mk _ _ _ _ a _ _ _ => a

def ORef.nt : ORef → Option ORef
  | .mk _ _ _ _ _ n _ _ => n

def ORef.items : ORef → Option ORef
  | .mk _ _ _ _ _ _ i _ => i

def ORef.addlSchema : ORef → Option ORef
  | .mk _ _ _ _ _ _ _ a => a

/-- openapi.NewSchemaRef: a reference cell with only Ref and Value set. -/
def NewSchemaRef (ref : String) (value : Option OSchema) : ORef :=
  .mk ref value [] [] [] none none none

/-- Schema.TypeSlice. -/
def OSchema.TypeSlice (s : OSchema) : List String := s.typ

/-- Schema.TypeIs: membership of a type string in the type slice. -/
def OSchema.TypeIs (s : OSchema) (t : String) : Bool := s.typ.contains t

/-- Schema.PropertiesToMap: none models the nil map returned for a nil
Properties field. -/
def OSchema.PropertiesToMap (s : OSchema) : Option (List (String × ORef)) :=
  s.properties

/-- Length of PropertiesToMap as Go len() sees it (nil map has length 0). -/
def OSchema.propsLen (s : OSchema) : Nat :=
  match s.properties with
  | none => 0
  | some l => l.length

/-- Modelled from the spec: SchemaHasAdditionalProperties (a utility of the
repository not among the provided sources).  Per the data model, the
additional-properties specification is absent, boolean, or a sub-schema;
the schema has additional properties when the boolean is true or a
sub-schema is present. -/
def SchemaHasAdditionalProperties (s : OSchema) : Bool :=
  s.sattrs.addlHas || s.addlSchema.isSome

/-! ### Configuration (the globalState.options reads of the embedded code)

The legacy merge selector (Compatibility.OldMergeSchemas) is omitted: the
body of the legacy mergeSchemasV1 is not among the provided sources, so
the embedding covers the default merge path. -/

structure Options where
  allowUnexportedStructFieldNames : Bool := false
  disableRequiredReadOnlyAsPointer : Bool := false
  oldEnumConflicts : Bool := false
  oldAliasing : Bool := false
  nullableType : Bool := false
  preferSkipOptionalPointer : Bool := false
  preferSkipOptionalPointerOnContainerTypes : Bool := false
  preferSkipOptionalPointerWithOmitzero : Bool := false
  disableFlattenAdditionalProperties : Bool := false
  disableTypeAliasesForType : List String := []
  enableYamlTags : Bool := false
  deriving DecidableEq, Repr

/-! ### Modelled name-synthesis utilities

These helpers live in repository utility files that are not among the
provided sources; they are modelled from the specification. -/

/-- Modelled from the spec: UppercaseFirstCharacter (case normalization of
the name synthesizer). -/
def UppercaseFirstCharacter (s : String) : String :=
  match s.data with
  | [] => ""
  | c :: cs => ⟨c.toUpper :: cs⟩

/-- Modelled from the spec: SchemaNameToTypeName, the base sanitization of
the name synthesizer: invalid-character stripping, case normalization of
the first character, and a leading-digit guard. -/
def SchemaNameToTypeName (s : String) : String :=
  let cleaned : List Char := s.data.filter isIdentChar
  let guarded : List Char :=
    match cleaned with
    | c :: _ => if c.isDigit then 'N' :: cleaned else cleaned
    | [] => cleaned
  UppercaseFirstCharacter ⟨guarded⟩

/-- Modelled from the spec: PathToTypeName, deterministic naming of nested
or synthetic types from the breadcrumb path. -/
def PathToTypeName (path : List String) : String :=
  String.join (path.map SchemaNameToTypeName)

/-- Modelled from the spec: IsGoTypeReference.  A reference names a Go
type when it is non-empty and not a whole-document reference (whole
document references carry no fragment marker). -/
def IsGoTypeReference (ref : String) : Bool :=
  ref != "" && strContains ref "#"

/-- Modelled from the spec: RefPathToGoType synthesizes a type name from
the reference path string; document-local component references of the
form a fragment with four segments resolve to the sanitized component
name, anything else is an unsupported reference.  (Cross-document
references are outside this model.) -/
def RefPathToGoType (ref : String) : Except String String :=
  match splitOnChar '/' ref with
  | ["#", "components", _, name] => .ok (SchemaNameToTypeName name)
  | _ => .error ("unsupported reference: " ++ ref)

/-- Modelled from the spec: RefPathToObjName, the component name used for
implicit discriminator values: the last segment of the reference path. -/
def RefPathToObjName (ref : String) : String :=
  (splitOnChar '/' ref).getLastD ""

/-- Modelled from the spec: StringInArray, plain membership. -/
def StringInArray (s : String) (l : List String) : Bool :=
  l.contains s

/-- Modelled from the spec: sliceContains, plain membership. -/
def sliceContains (l : List String) (s : String) : Bool :=
  l.contains s

/-- Modelled from the spec: SortedSchemaKeys iterates property names in a
stable sorted order, never in map order.  A nil map has no keys. -/
def SortedSchemaKeys {α : Type} (m : Option (List (String × α))) : List String :=
  match m with
  | none => []
  | some l => strSort (akeys l)

/-- Modelled from the spec: SortedMapKeys, the sorted key list of a map. -/
def SortedMapKeys {α : Type} (m : List (String × α)) : List String :=
  strSort (akeys m)

/-- Modelled from the spec: StringToGoComment renders a description as a
source comment. -/
def StringToGoComment (s : String) : String :=
  if s = "" then "" else "// " ++ s

/-- Modelled from the spec: StringWithTypeNameToGoComment renders a field
description as a comment mentioning the field name. -/
def StringWithTypeNameToGoComment (s name : String) : String :=
  if s = "" then "" else "// " ++ name ++ " " ++ s

/-- Modelled from the spec: DeprecationComment. -/
def DeprecationComment (reason : String) : String :=
  if reason = "" then "// Deprecated:" else "// Deprecated: " ++ reason

/-- Modelled from the spec: SanitizeEnumNames derives display names from
the literal strings, sanitized for validity; the association maps each
display name to its literal value. -/
def SanitizeEnumNames (names values : List String) : List (String × String) :=
  (names.zip values).map (fun (n, v) => (SchemaNameToTypeName n, v))

/-! ### The compiler output model (codegen.Schema and friends, schema.go) -/

/-- codegen.Discriminator: the output discriminator with its value-to-type
mapping (a Go map, modelled as an insert-or-replace association list). -/
structure GDisc where
  mapping : List (String × String) := []
  propertyName : String := ""
  deriving DecidableEq, Repr

/-- The non-recursive attributes of a codegen.Schema. -/
structure GAttrs where
  goType : String := ""
  refType : String := ""
  enumValues : List (String × String) := []
  hasAdditionalProperties : Bool := false
  embeddedTypes : List String := []
  skipOptionalPointer : Bool := false
  description : String := ""
  unionElements : List String := []
  discriminator : Option GDisc := none
  defineViaAlias : Bool := false
  deriving DecidableEq, Repr

/-- The non-recursive attributes of a codegen.Property. -/
structure PAttrs where
  description : String := ""
  jsonFieldName : String := ""
  required : Bool := false
  nullable : Bool := false
  readOnly : Bool := false
  writeOnly : Bool := false
  needsFormTag : Bool := false
  extensions : List (String × ExtVal) := []
  deprecated : Bool := false
  deriving DecidableEq, Repr

mutual
inductive GSchema where
  | mk (attrs : GAttrs)
       (arrayType : Option GSchema)
       (additionalPropertiesType : Option GSchema)
       (properties : List GProperty)
       (additionalTypes : List GTypeDef)
       (oapiSchema : Option OSchema) : GSchema
inductive GProperty where
  | mk (pattrs : PAttrs) (schema : GSchema) : GProperty
inductive GTypeDef where
  | mk (typeName : String) (jsonName : String) (schema : GSchema) : GTypeDef
end

def GSchema.attrs : GSchema → GAttrs
  | .mk a _ _ _ _ _ => a

def GSchema.arrayType : GSchema → Option GSchema
  | .mk _ a _ _ _ _ => a

def GSchema.additionalPropertiesType : GSchema → Option GSchema
  | .mk _ _ a _ _ _ => a

def GSchema.properties : GSchema → List GProperty
  | .mk _ _ _ p _ _ => p

def GSchema.additionalTypes : GSchema → List GTypeDef
  | .mk _ _ _ _ t _ => t

def GSchema.oapiSchema : GSchema → Option OSchema
  | .mk _ _ _ _ _ o => o

/-- A codegen.Schema with only non-recursive attributes populated. -/
def GSchema.base (a : GAttrs) : GSchema :=
  .mk a none none [] [] none

/-- codegen.Schema zero value. -/
def GSchema.zero : GSchema := GSchema.base {}

def GSchema.withAttrs : GSchema → (GAttrs → GAttrs) → GSchema
  | .mk a b c d e f, g => .mk (g a) b c d e f

def GSchema.setArrayType : GSchema → Option GSchema → GSchema
  | .mk a _ c d e f, b => .mk a b c d e f

def GSchema.setAdditionalPropertiesType : GSchema → Option GSchema → GSchema
  | .mk a b _ d e f, c => .mk a b c d e f

def GSchema.setProperties : GSchema → List GProperty → GSchema
  | .mk a b c _ e f, d => .mk a b c d e f

def GSchema.setAdditionalTypes : GSchema → List GTypeDef → GSchema
  | .mk a b c d _ f, e => .mk a b c d e f

def GSchema.setOapiSchema : GSchema → Option OSchema → GSchema
  | .mk a b c d e _, f => .mk a b c d e f

def GSchema.goType (s : GSchema) : String := s.attrs.goType
def GSchema.refType (s : GSchema) : String := s.attrs.refType
def GSchema.enumValues (s : GSchema) : List (String × String) := s.attrs.enumValues
def GSchema.hasAdditionalProperties (s : GSchema) : Bool := s.attrs.hasAdditionalProperties
def GSchema.embeddedTypes (s : GSchema) : List String := s.attrs.embeddedTypes
def GSchema.skipOptionalPointer (s : GSchema) : Bool := s.attrs.skipOptionalPointer
def GSchema.unionElements (s : GSchema) : List String := s.attrs.unionElements
def GSchema.discriminator (s : GSchema) : Option GDisc := s.attrs.discriminator
def GSchema.defineViaAlias (s : GSchema) : Bool := s.attrs.defineViaAlias
def GSchema.description (s : GSchema) : String := s.attrs.description

def GProperty.pattrs : GProperty → PAttrs
  | .mk a _ => a

def GProperty.schema : GProperty → GSchema
  | .mk _ s => s

def GProperty.withSchema : GProperty → GSchema → GProperty
  | .mk a _, s => .mk a s

def GProperty.jsonFieldName (p : GProperty) : String := p.pattrs.jsonFieldName
def GProperty.required (p : GProperty) : Bool := p.pattrs.required
def GProperty.nullable (p : GProperty) : Bool := p.pattrs.nullable
def GProperty.readOnly (p : GProperty) : Bool := p.pattrs.readOnly
def GProperty.writeOnly (p : GProperty) : Bool := p.pattrs.writeOnly
def GProperty.needsFormTag (p : GProperty) : Bool := p.pattrs.needsFormTag
def GProperty.extensions (p : GProperty) : List (String × ExtVal) := p.pattrs.extensions
def GProperty.deprecated (p : GProperty) : Bool := p.pattrs.deprecated
def GProperty.description (p : GProperty) : String := p.pattrs.description

def GTypeDef.typeName : GTypeDef → String
  | .mk n _ _ => n

def GTypeDef.jsonName : GTypeDef → String
  | .mk _ j _ => j

def GTypeDef.schema : GTypeDef → GSchema
  | .mk _ _ s => s

/-- Schema.IsRef. -/
def GSchema.IsRef (s : GSchema) : Bool := s.refType != ""

/-- Schema.IsExternalRef. -/
def GSchema.IsExternalRef (s : GSchema) : Bool :=
  s.IsRef && strContains s.refType "."

/-- Schema.TypeDecl: the reference name when present, else the Go type. -/
def GSchema.TypeDecl (s : GSchema) : String :=
  if s.IsRef then s.refType else s.goType

/-- PropertiesEqual: identical name, identical compiled type spelling, and
identical required flag. -/
def PropertiesEqual (a b : GProperty) : Bool :=
  a.jsonFieldName == b.jsonFieldName && a.schema.TypeDecl == b.schema.TypeDecl
    && a.required == b.required

/-- Schema.AddProperty: scans the existing properties; a same-name,
non-equal property is a conflict, otherwise the property is appended. -/
def GSchema.AddProperty (s : GSchema) (p : GProperty) : Except String GSchema :=
  match s.properties.find? (fun e => e.jsonFieldName == p.jsonFieldName && !(PropertiesEqual e p)) with
  | some e => .error ("property " ++ e.jsonFieldName ++ " already exists with a different type")
  | none => .ok (s.setProperties (s.properties ++ [p]))

/-- TypeDefinition.IsAlias. -/
def GTypeDef.IsAlias (opts : Options) (t : GTypeDef) : Bool :=
  !opts.oldAliasing && t.schema.defineViaAlias

/-- Property.GoFieldName. -/
def GProperty.GoFieldName (opts : Options) (p : GProperty) : String :=
  let goFieldName := p.jsonFieldName
  let goFieldName :=
    match alookup p.extensions extGoName with
    | some v =>
      match extParseGoFieldName v with
      | .ok n => n
      | .error _ => goFieldName
    | none => goFieldName
  let honour : Bool :=
    opts.allowUnexportedStructFieldNames &&
      (match alookup p.extensions extOapiCodegenOnlyHonourGoName with
       | some v =>
         match extParseOapiCodegenOnlyHonourGoName v with
         | .ok b => b
         | .error _ => false
       | none => false)
  if honour then goFieldName else SchemaNameToTypeName goFieldName

/-- Property.GoTypeDef: the rendered field type, with the optional-pointer
indirection unless the schema opts out. -/
def GProperty.GoTypeDef (opts : Options) (p : GProperty) : String :=
  let typeDef := p.schema.TypeDecl
  if opts.nullableType && p.nullable then
    "nullable.Nullable[" ++ typeDef ++ "]"
  else if !p.schema.skipOptionalPointer &&
      (!p.required || p.nullable ||
        (p.readOnly && (!p.required || !opts.disableRequiredReadOnlyAsPointer)) ||
        p.writeOnly) then
    "*" ++ typeDef
  else
    typeDef

/-- Property.HasOptionalPointer. -/
def GProperty.HasOptionalPointer (p : GProperty) : Bool :=
  p.required == false && p.schema.skipOptionalPointer == false

/-- stringOrEmpty. -/
def stringOrEmpty (b : Bool) (s : String) : String :=
  if b then s else ""

/-- GenFieldsFromProperties: one rendered struct-field line per property,
with comments and tags. -/
def GenFieldsFromProperties (opts : Options) (props : List GProperty) : List String :=
  (props.enum.map (fun (i, p) =>
    let goFieldName := p.GoFieldName opts
    let field : String :=
      if p.description != "" then
        (if i != 0 then "\n" else "") ++ StringWithTypeNameToGoComment p.description goFieldName ++ "\n"
      else ""
    let field :=
      if p.deprecated then
        let deprecationReason :=
          match alookup p.extensions extDeprecationReason with
          | some v =>
            match extParseDeprecationReason v with
            | .ok r => r
            | .error _ => ""
          | none => ""
        field ++ DeprecationComment deprecationReason ++ "\n"
      else field
    let p :=
      match alookup p.extensions extPropGoTypeSkipOptionalPointer with
      | some v =>
        match extParsePropGoTypeSkipOptionalPointer v with
        | .ok b => p.withSchema (p.schema.withAttrs (fun a => { a with skipOptionalPointer := b }))
        | .error _ => p
      | none => p
    let field := field ++ "    " ++ goFieldName ++ " " ++ p.GoTypeDef opts
    let shouldOmitEmpty :=
      (!p.required || p.readOnly || p.writeOnly) &&
        (!p.required || !p.readOnly || !opts.disableRequiredReadOnlyAsPointer)
    let omitEmpty := !p.nullable && shouldOmitEmpty
    let omitEmpty := if p.nullable && opts.nullableType then shouldOmitEmpty else omitEmpty
    let omitZero :=
      shouldOmitEmpty && p.schema.skipOptionalPointer && opts.preferSkipOptionalPointerWithOmitzero
    let omitEmpty :=
      match alookup p.extensions extPropOmitEmpty with
      | some v =>
        match extParseOmitEmpty v with
        | .ok b => b
        | .error _ => omitEmpty
      | none => omitEmpty
    let omitZero :=
      match alookup p.extensions extPropOmitZero with
      | some v =>
        match extParseOmitZero v with
        | .ok b => b
        | .error _ => omitZero
      | none => omitZero
    let fieldTags : List (String × String) :=
      [("json", p.jsonFieldName ++ stringOrEmpty omitEmpty ",omitempty" ++ stringOrEmpty omitZero ",omitzero")]
    let fieldTags :=
      if opts.enableYamlTags then
        aset fieldTags "yaml" (p.jsonFieldName ++ stringOrEmpty omitEmpty ",omitempty")
      else fieldTags
    let fieldTags :=
      if p.needsFormTag then
        aset fieldTags "form" (p.jsonFieldName ++ stringOrEmpty omitEmpty ",omitempty")
      else fieldTags
    let fieldTags :=
      match alookup p.extensions extPropGoJsonIgnore with
      | some v =>
        match extParseGoJsonIgnore v with
        | .ok true => aset fieldTags "json" "-"
        | _ => fieldTags
      | none => fieldTags
    let fieldTags :=
      match alookup p.extensions extPropExtraTags with
      | some v =>
        match extExtraTags v with
        | .ok tags =>
          (SortedMapKeys tags).foldl
            (fun ft k => aset ft k ((alookup tags k).getD "")) fieldTags
        | .error _ => fieldTags
      | none => fieldTags
    let keys := SortedMapKeys fieldTags
    let tags := keys.map (fun k => k ++ ":\"" ++ (alookup fieldTags k).getD "" ++ "\"")
    field ++ "`" ++ strJoin " " tags ++ "`"))

/-- additionalPropertiesType: the reference name when present, else the
element Go type. -/
def additionalPropertiesType (s : GSchema) : String :=
  match s.additionalPropertiesType with
  | none => ""
  | some t => if t.refType != "" then t.refType else t.goType

/-- GenStructFromSchema: struct opener, embedded types, rendered fields,
the additional-properties map field, the raw union field, closer. -/
def GenStructFromSchema (opts : Options) (s : GSchema) : String :=
  let objectParts := ["struct \x7b"]
  let objectParts := objectParts ++ s.embeddedTypes.map (fun e => "    " ++ e)
  let objectParts := objectParts ++ GenFieldsFromProperties opts s.properties
  let objectParts :=
    if s.hasAdditionalProperties then
      objectParts ++ ["AdditionalProperties map[string]" ++ additionalPropertiesType s ++ " `json:\"-\"`"]
    else objectParts
  let objectParts :=
    if s.unionElements.length != 0 then objectParts ++ ["union json.RawMessage"]
    else objectParts
  let objectParts := objectParts ++ ["\x7d"]
  strJoin "\n" objectParts

/-- setSkipOptionalPointerForContainerType: forces the skip flag on
container types when the corresponding output option is set. -/
def setSkipOptionalPointerForContainerType (opts : Options) (s : GSchema) : GSchema :=
  if !opts.preferSkipOptionalPointerOnContainerTypes then s
  else s.withAttrs (fun a => { a with skipOptionalPointer := true })

/-- Go %q rendering of a string (double-quoted). -/
def goQuote (s : String) : String := "\"" ++ s ++ "\""

/-- Length of an optional list as Go len() sees a possibly-nil slice. -/
def olen {α : Type} : Option (List α) → Nat
  | none => 0
  | some l => l.length

def ORef.setRef : ORef → String → ORef
  | .mk _ v o a al n i ad, r => .mk r v o a al n i ad

def OSchema.setProperties : OSchema → Option (List (String × ORef)) → OSchema
  | .mk a _ ad i al o an, p => .mk a p ad i al o an

/-- The result of one compiler call: the produced type descriptor together
with the nullable flag of the input reference value after the call (the
compiler mutates schema.Nullable when collapsing a type union with a null
member; the enclosing property loop observes that mutation). -/
abbrev GenRes := GSchema × Bool

/-- The type of the recursive compiler entry point, threaded explicitly
through the per-pass helpers so that each helper is non-recursive and the
recursion is carried by a single fuel-indexed function. -/
abbrev GenFn := Option ORef → List String → Except String GenRes

/-! ### The allOf merger (merge_schemas.go) -/

/-- equalTypes: element-wise equality of two type slices. -/
def equalTypes : List String → List String → Bool
  | [], [] => true
  | a :: as_, b :: bs => a == b && equalTypes as_ bs
  | _, _ => false

/-- valueWithPropagatedRef: for an external (non-fragment) reference,
returns a copy of the referenced schema whose document-local property
references are prefixed with the remote document component; local or
empty references pass the value through unchanged. -/
def valueWithPropagatedRef (ref : ORef) : Except String (Option OSchema) :=
  if ref.ref.length == 0 || ref.ref.data.headD ' ' == '#' then
    .ok ref.value
  else
    let pathParts := splitOnChar '#' ref.ref
    if pathParts.length < 1 || pathParts.length > 2 then
      .error ("unsupported reference: " ++ ref.ref)
    else
      let remoteComponent := pathParts.headD ""
      match ref.value with
      | none => .ok none
      | some schema =>
        let newProps := schema.properties.map (List.map (fun (n, v) =>
          if v.ref.length > 0 && v.ref.data.headD ' ' == '#' then
            (n, v.setRef (remoteComponent ++ v.ref))
          else (n, v)))
        .ok (some (schema.setProperties newProps))

/-- The conflict-preference scan of mergeOpenapiSchemas: whether the
incoming property value should replace an existing same-name property
(enum-bearing beats enum-free; a concrete array beats a generic object). -/
def mergeShouldReplace (existing incoming : ORef) : Bool :=
  let existingEnumCount :=
    match existing.value with
    | some s => s.enum.length
    | none => 0
  let newEnumCount :=
    match incoming.value with
    | some s => s.enum.length
    | none => 0
  let preferEnum := newEnumCount > 0 && existingEnumCount == 0
  let preferArray :=
    match existing.value, incoming.value with
    | some ex, some nw =>
      (ex.typ.headD "" == "object" && ex.typ.length > 0) &&
        (nw.typ.headD "" == "array" && nw.typ.length > 0 && nw.items.isSome)
    | _, _ => false
  preferEnum || preferArray

/-- The property-union fold of mergeOpenapiSchemas: properties of the
second schema are added unless an equally named property already exists,
in which case the existing one is kept unless the preference rules say to
replace it in place. -/
def mergePropsFold (acc : List (String × ORef)) : List (String × ORef) → List (String × ORef)
  | [] => acc
  | (propertyName, value) :: rest =>
    let existing := alookup acc propertyName
    let hasProperty := existing.isSome
    let shouldReplaceExisting :=
      match existing with
      | some e => mergeShouldReplace e value
      | none => false
    let acc :=
      if !hasProperty || shouldReplaceExisting then aset acc propertyName value
      else acc
    mergePropsFold acc rest

/-- Order-preserving deduplication used to determinize the required-set
union (Go collects the union in a map and reads it back in map order). -/
def dedupStringsGo : List String → List String → List String
  | [], _ => []
  | s :: rest, seen =>
    if seen.contains s then dedupStringsGo rest seen
    else s :: dedupStringsGo rest (s :: seen)

/-- First-occurrence deduplication. -/
def dedupStrings (l : List String) : List String :=
  dedupStringsGo l []

/-- mergeOpenapiSchemas: merges two openAPI schemas field-wise; the result
starts from the first schema, unions the property sets with the in-place
preference rules, and unions the required sets.  (The combined-type
computation of the source is dead code: its result is discarded with a
note that the first schema-s types are used.)  The function never
returns an error. -/
def mergeOpenapiSchemas (s1 s2 : OSchema) (_allOf : Bool) : Except String OSchema :=
  let result := s1
  let s1Props := s1.PropertiesToMap
  let s2Props := s2.PropertiesToMap
  let result :=
    if s1Props.isSome || s2Props.isSome then
      if s2Props.isSome then
        if s1Props.isNone then result.setProperties s2.properties
        else
          match result.properties, s2.properties with
          | some rp, some sp => result.setProperties (some (mergePropsFold rp sp))
          | _, _ => result.setProperties s2.properties
      else result
    else result
  let result :=
    if s1.required ≠ [] || s2.required ≠ [] then
      result.withAttrs (fun a => { a with required := dedupStrings (s1.required ++ s2.required) })
    else result
  .ok result

/-- The fold of mergeSchemas over the tail of the allOf list. -/
def mergeSchemasLoop : List ORef → OSchema → Except String OSchema
  | [], acc => .ok acc
  | r :: rest, acc =>
    match valueWithPropagatedRef r with
    | .error e => .error e
    | .ok none =>
      -- Go dereferences the nil schema pointer here and would panic; the
      -- merge is only reached with resolved schema values.
      .error "nil schema in allOf merge"
    | .ok (some oneOfSchema) =>
      match mergeOpenapiSchemas acc oneOfSchema true with
      | .error e => .error ("error merging schemas for AllOf: " ++ e)
      | .ok merged => mergeSchemasLoop rest merged

/-- mergeSchemas: merging no schemas is an error, merging one schema is
direct compilation of that schema, merging several folds them into one
effective schema and compiles the result under an empty reference.
(The MergeSchemas dispatcher of the source selects this function unless
the legacy OldMergeSchemas compatibility flag is set; the legacy body is
not among the provided sources.) -/
def mergeSchemasF (g : GenFn) (allOf : List ORef) (path : List String) : Except String GSchema :=
  match allOf with
  | [] => .error "no schemas to merge in allOf"
  | [single] => (g (some single) path).map Prod.fst
  | first :: rest =>
    match valueWithPropagatedRef first with
    | .error e => .error e
    | .ok none => .error "nil schema in allOf merge"
    | .ok (some schema0) =>
      match mergeSchemasLoop rest schema0 with
      | .error e => .error e
      | .ok merged => (g (some (NewSchemaRef "" (some merged))) path).map Prod.fst

/-! ### The primitive and array compiler (oapiSchemaToGoType, schema.go) -/

/-- The per-type dispatch of oapiSchemaToGoType after the union-type
handling: array, integer, number, boolean and string schemas produce
their Go representations, anything else is an unhandled schema type.
tMsg is the local type slice used in the unhandled-type message (the
source reassigns it when collapsing a union type). -/
def oapiSchemaToGoTypeCoreS (opts : Options) (g : GenFn) (schema : OSchema)
    (path : List String) (outSchema : GSchema) (tMsg : List String) :
    Except String GSchema :=
  let f := schema.format
  if schema.TypeIs "array" then
    match g schema.items (path ++ ["Item"]) with
    | .error e => .error ("error generating type for array: " ++ e)
    | .ok (arrayType0, _) =>
      let arrayType :=
        if (arrayType0.hasAdditionalProperties || arrayType0.unionElements.length != 0)
            && arrayType0.refType == "" then
          let typeName := PathToTypeName (path ++ ["Item"])
          let typeDef : GTypeDef := .mk typeName (strJoin "." (path ++ ["Item"])) arrayType0
          ((arrayType0.setAdditionalTypes (arrayType0.additionalTypes ++ [typeDef])).withAttrs
            (fun a => { a with refType := typeName }))
        else arrayType0
      let out := outSchema.setArrayType (some arrayType)
      let out := out.withAttrs (fun a => { a with goType := "[]" ++ arrayType.TypeDecl })
      let out := out.setAdditionalTypes arrayType.additionalTypes
      let out := out.setProperties arrayType.properties
      let out := out.withAttrs (fun a => { a with defineViaAlias := true })
      let out :=
        if sliceContains opts.disableTypeAliasesForType "array" then
          out.withAttrs (fun a => { a with defineViaAlias := false })
        else out
      .ok (setSkipOptionalPointerForContainerType opts out)
  else if schema.TypeIs "integer" then
    let goType :=
      if ["int64", "int32", "int16", "int8", "int", "uint64", "uint32", "uint16", "uint8", "uint"].contains f
      then f else "int"
    .ok (outSchema.withAttrs (fun a => { a with goType := goType, defineViaAlias := true }))
  else if schema.TypeIs "number" then
    if f == "double" then
      .ok (outSchema.withAttrs (fun a => { a with goType := "float64", defineViaAlias := true }))
    else if f == "float" || f == "" then
      .ok (outSchema.withAttrs (fun a => { a with goType := "float32", defineViaAlias := true }))
    else
      .error ("invalid number format: " ++ f)
  else if schema.TypeIs "boolean" then
    if f != "" then .error ("invalid format (" ++ f ++ ") for boolean")
    else .ok (outSchema.withAttrs (fun a => { a with goType := "bool", defineViaAlias := true }))
  else if schema.TypeIs "string" then
    let out :=
      if f == "byte" then
        setSkipOptionalPointerForContainerType opts (outSchema.withAttrs (fun a => { a with goType := "[]byte" }))
      else if f == "email" then outSchema.withAttrs (fun a => { a with goType := "openapi_types.Email" })
      else if f == "date" then outSchema.withAttrs (fun a => { a with goType := "openapi_types.Date" })
      else if f == "date-time" then outSchema.withAttrs (fun a => { a with goType := "time.Time" })
      else if f == "json" then
        outSchema.withAttrs (fun a => { a with goType := "json.RawMessage", skipOptionalPointer := true })
      else if f == "uuid" then outSchema.withAttrs (fun a => { a with goType := "openapi_types.UUID" })
      else if f == "binary" then outSchema.withAttrs (fun a => { a with goType := "openapi_types.File" })
      else outSchema.withAttrs (fun a => { a with goType := "string" })
    .ok (out.withAttrs (fun a => { a with defineViaAlias := true }))
  else
    .error ("unhandled Schema type: " ++ goStrSliceRepr tMsg)

/-- The per-type dispatch paired with the nullable flag it leaves on the
schema (the dispatch itself never changes the flag). -/
def oapiSchemaToGoTypeCore (opts : Options) (g : GenFn) (schema : OSchema)
    (path : List String) (outSchema : GSchema) (tMsg : List String) :
    Except String GenRes :=
  (oapiSchemaToGoTypeCoreS opts g schema path outSchema tMsg).map (fun o => (o, schema.nullable))

/-- oapiSchemaToGoType: the OpenAPI 3.1 union-type handling in front of
the per-type dispatch.  A type list with only a null member is the
universal type; one concrete member plus null collapses to the concrete
member with the nullable flag mutated to true; one concrete member alone
proceeds directly; one string plus one numeric member collapses to
float32; any other union degrades to the universal type. -/
def oapiSchemaToGoTypeF (opts : Options) (g : GenFn) (schema : OSchema)
    (path : List String) (outSchema : GSchema) : Except String GenRes :=
  let typeSlice := schema.TypeSlice
  if typeSlice.length ≥ 1 then
    let hasNull := typeSlice.contains "null"
    let nonNullTypes := typeSlice.filter (fun t => t != "null")
    if hasNull && nonNullTypes.length == 0 then
      .ok ((outSchema.withAttrs (fun a => { a with goType := "interface{}", defineViaAlias := true })), schema.nullable)
    else if hasNull && nonNullTypes.length == 1 then
      oapiSchemaToGoTypeCore opts g (schema.withAttrs (fun a => { a with nullable := true })) path
        outSchema [nonNullTypes.headD ""]
    else if !hasNull && nonNullTypes.length == 1 then
      oapiSchemaToGoTypeCore opts g schema path outSchema [nonNullTypes.headD ""]
    else
      let hasString := nonNullTypes.contains "string"
      let hasNumber := nonNullTypes.contains "number" || nonNullTypes.contains "integer"
      if nonNullTypes.length == 2 && hasString && hasNumber then
        .ok ((outSchema.withAttrs (fun a => { a with goType := "float32", defineViaAlias := true })), schema.nullable)
      else
        .ok ((outSchema.withAttrs (fun a => { a with goType := "interface{}", defineViaAlias := true })), schema.nullable)
  else
    oapiSchemaToGoTypeCore opts g schema path outSchema typeSlice

/-! ### The union generator (generateUnion, schema.go) -/

/-- Write one entry of the output discriminator mapping (the output
discriminator is present whenever this is reached). -/
def GSchema.discSet (s : GSchema) (k v : String) : GSchema :=
  s.withAttrs (fun a =>
    { a with discriminator :=
        match a.discriminator with
        | some dd => some { dd with mapping := aset dd.mapping k v }
        | none => none })

/-- The type name generateUnion gives an inline variant: derived from the
schema path, with a kind-describing suffix appended when the plain name is
already taken by an earlier variant. -/
def unionElementName (used : List String) (elementPath : List String) (i : Nat)
    (elementSchema0 : GSchema) : String :=
  let elementName0 := SchemaNameToTypeName (PathToTypeName elementPath)
  if used.contains elementName0 then
    let suffix :=
      if elementSchema0.arrayType.isSome then "Array"
      else if elementSchema0.enumValues.length > 0 then "Enum"
      else if elementSchema0.goType == "string" then "String"
      else if elementSchema0.goType == "int" || elementSchema0.goType == "int32"
          || elementSchema0.goType == "int64" then "Int"
      else if elementSchema0.goType == "bool" then "Bool"
      else "Variant" ++ toString i
    elementName0 ++ suffix
  else elementName0

/-- Register an inline variant with generateUnion: emit a named type
definition for it when it is not already self-named, retype the variant to
that name, and absorb its additional types into the output schema.
Non-inline variants pass through unchanged.  Returns the updated output
schema and the (possibly retyped) variant schema. -/
def unionAbsorb (inline : Bool) (elementName : String) (out elementSchema0 : GSchema) :
    GSchema × GSchema :=
  let p :=
    if inline then
      if elementSchema0.TypeDecl == elementName then
        (out, elementSchema0.withAttrs (fun a => { a with goType := elementName }))
      else
        let td : GTypeDef := .mk elementName "" elementSchema0
        (out.setAdditionalTypes (out.additionalTypes ++ [td]),
         elementSchema0.withAttrs (fun a => { a with goType := elementName }))
    else (out, elementSchema0)
  if inline then
    (p.1.setAdditionalTypes (p.1.additionalTypes ++ p.2.additionalTypes), p.2)
  else p

/-- The discriminator-mapping key for a union variant: the explicit
mapping entry naming its reference when one exists, else the name of the
referenced component. -/
def unionDiscKey (d : DiscIn) (ref : String) : String :=
  match d.mapping.find? (fun kv => kv.2 == ref) with
  | some (k, _) => k
  | none => RefPathToObjName ref

/-- Append a compiled variant type to the union members unless an
identical member is already present. -/
def unionAddElement (out : GSchema) (t : String) : GSchema :=
  if out.unionElements.contains t then out
  else out.withAttrs (fun a => { a with unionElements := a.unionElements ++ [t] })

/-- One iteration of the per-variant loop of generateUnion: compile the
variant, name and register it when inline, check the
ambiguous-discriminator condition, write the discriminator mapping entry
(explicit first, else implicit), and append the deduplicated union
member.  Returns the updated output schema, reference-to-type map and
used inline type names. -/
def unionStep (opts : Options) (g : GenFn) (discriminator : Option DiscIn)
    (path : List String) (element : ORef) (i : Nat) (out : GSchema)
    (refMap : List (String × String)) (used : List String) :
    Except String (GSchema × List (String × String) × List String) :=
  let elementPath := path ++ [toString i]
  match g (some element) elementPath with
  | .error e => .error e
  | .ok (elementSchema0, _) =>
    let inline := element.ref == ""
    let elementName := unionElementName used elementPath i elementSchema0
    let used := if inline then used ++ [elementName] else used
    let oe := unionAbsorb inline elementName out elementSchema0
    let refMap := if inline then refMap else aset refMap element.ref oe.2.goType
    match discriminator with
    | some d =>
      if d.mapping.length != 0 && inline then
        .error "ambiguous discriminator.mapping: please replace inlined object with $ref"
      else
        .ok (unionAddElement (oe.1.discSet (unionDiscKey d element.ref) oe.2.goType) oe.2.goType,
             refMap, used)
    | none => .ok (unionAddElement oe.1 oe.2.goType, refMap, used)

/-- The per-variant loop of generateUnion, carrying the union index, the
accumulated output schema, the reference-to-type map and the used
inline-variant type names. -/
def generateUnionGo (opts : Options) (g : GenFn) (discriminator : Option DiscIn)
    (path : List String) :
    List ORef → Nat → GSchema → List (String × String) → List String → Except String GSchema
  | [], _, out, _, _ => .ok out
  | element :: rest, i, out, refMap, used =>
    match unionStep opts g discriminator path element i out refMap used with
    | .error e => .error e
    | .ok (out, refMap, used) => generateUnionGo opts g discriminator path rest (i + 1) out refMap used

/-- generateUnion: compile every variant, name and register inline
variants, build the discriminator mapping from explicit entries first and
implicitly from reference names, deduplicate structurally identical
variants, and finally require the mapping to cover every variant. -/
def generateUnionF (opts : Options) (g : GenFn) (outSchema : GSchema)
    (elements : List ORef) (discriminator : Option DiscIn) (path : List String) :
    Except String GSchema :=
  let out :=
    match discriminator with
    | some d => outSchema.withAttrs (fun a => { a with discriminator := some ⟨[], d.propertyName⟩ })
    | none => outSchema
  match generateUnionGo opts g discriminator path elements 0 out [] [] with
  | .error e => .error e
  | .ok out =>
    match out.discriminator with
    | some dd =>
      if dd.mapping.length != elements.length then
        .error "discriminator: not all schemas were mapped"
      else .ok out
    | none => .ok out

/-! ### The central schema compiler (GenerateGoSchema, schema.go) -/

/-- The x-go-type-name wrap applied to object results: the computed result
is registered as a named type definition and the call site aliases it. -/
def xGoTypeNameWrap (schema : OSchema) (outSchema : GSchema) : Except String GSchema :=
  match alookup schema.extensions extGoTypeName with
  | none => .ok outSchema
  | some v =>
    match extTypeName v with
    | .error e => .error ("invalid value for " ++ goQuote extGoTypeName ++ ": " ++ e)
    | .ok typeName =>
      let newTypeDef : GTypeDef := .mk typeName "" outSchema
      .ok ((GSchema.base
        { description := newTypeDef.schema.description, goType := typeName, defineViaAlias := true
        }).setAdditionalTypes (outSchema.additionalTypes ++ [newTypeDef]))

/-- The allOf pre-scan: counts reference elements and detects an inline
element with nested composition (which disables the embedded-struct
special case, stopping the scan early as the source loop breaks). -/
def scanAllOf : List ORef → Bool → Nat → Bool × Nat
  | [], simple, cnt => (simple, cnt)
  | r :: rest, simple, cnt =>
    if r.ref != "" then scanAllOf rest simple (cnt + 1)
    else if (match r.value with
             | some v => olen v.allOf > 0 || olen v.oneOf > 0 || olen v.anyOf > 0
             | none => false) then
      (false, cnt)
    else scanAllOf rest simple cnt

/-- The embedded-struct loop of the allOf special case: reference elements
become embedded type names, inline elements contribute their properties,
and auxiliary definitions are collected from both. -/
def allOfEmbedLoop (g : GenFn) (path : List String) :
    List ORef → GSchema → Except String GSchema
  | [], out => .ok out
  | schemaRef :: rest, out =>
    if schemaRef.ref != "" then
      match RefPathToGoType schemaRef.ref with
      | .error e => .error ("error converting ref path to go type: " ++ e)
      | .ok refTypeName =>
        let out := out.withAttrs (fun a => { a with embeddedTypes := a.embeddedTypes ++ [refTypeName] })
        match g (some schemaRef) path with
        | .error e => .error ("error generating referenced schema in allOf: " ++ e)
        | .ok (referencedSchema, _) =>
          allOfEmbedLoop g path rest
            (out.setAdditionalTypes (out.additionalTypes ++ referencedSchema.additionalTypes))
    else
      match g (some schemaRef) path with
      | .error e => .error ("error generating inline schema in allOf: " ++ e)
      | .ok (inlineSchema, _) =>
        let out := out.setProperties (out.properties ++ inlineSchema.properties)
        allOfEmbedLoop g path rest
          (out.setAdditionalTypes (out.additionalTypes ++ inlineSchema.additionalTypes))

/-- The property loop of the object branch: properties are compiled in
sorted name order, auxiliary types are synthesized for unnamed results
that carry additional properties or union members, and the property
record reads the schema value attributes after compilation (observing the
union-null nullability mutation). -/
def objectPropsLoop (opts : Options) (g : GenFn) (schema : OSchema) (path : List String) :
    List String → GSchema → Except String GSchema
  | [], out => .ok out
  | pName :: rest, out =>
    match alookup (schema.PropertiesToMap.getD []) pName with
    | none => objectPropsLoop opts g schema path rest out
    | some p =>
      let propertyPath := path ++ [pName]
      match g (some p) propertyPath with
      | .error e => .error ("error generating Go schema for property " ++ pName ++ ": " ++ e)
      | .ok (pSchema0, pValueNullableAfter) =>
        let required := StringInArray pName schema.required
        let pSchema :=
          if (pSchema0.hasAdditionalProperties || pSchema0.unionElements.length != 0)
              && pSchema0.refType == "" then
            let typeName := PathToTypeName propertyPath
            let typeDef : GTypeDef := .mk typeName (strJoin "." propertyPath) pSchema0
            ((pSchema0.setAdditionalTypes (pSchema0.additionalTypes ++ [typeDef])).withAttrs
              (fun a => { a with refType := typeName }))
          else pSchema0
        let description :=
          match p.value with
          | some v => v.description
          | none => ""
        -- The source dereferences p.Value for the remaining attributes;
        -- absent values default here (the adapter always populates them).
        let prop : GProperty := .mk
          { jsonFieldName := pName
            required := required
            description := description
            nullable := pValueNullableAfter
            readOnly := (p.value.map (fun v => v.sattrs.readOnly)).getD false
            writeOnly := (p.value.map (fun v => v.sattrs.writeOnly)).getD false
            extensions := (p.value.map OSchema.extensions).getD []
            deprecated := (p.value.map (fun v => v.sattrs.deprecated)).getD false
          } pSchema
        let out := out.setProperties (out.properties ++ [prop])
        let out :=
          if pSchema.additionalTypes.length > 0 then
            out.setAdditionalTypes (out.additionalTypes ++ pSchema.additionalTypes)
          else out
        objectPropsLoop opts g schema path rest out

/-- The extension lookup chain for enum display names: the var-names
extension first, then the names extension, else the literal strings. -/
def enumNamesFromExts (schema : OSchema) (fallback : List String) : List String :=
  let second : List String :=
    match alookup schema.extensions extEnumNames with
    | some v =>
      match extParseEnumVarNames v with
      | .ok ns => ns
      | .error _ => fallback
    | none => fallback
  match alookup schema.extensions extEnumVarNames with
  | some v =>
    match extParseEnumVarNames v with
    | .ok ns => ns
    | .error _ => second
  | none => second

/-- The enum value table: display name (possibly Empty for an empty
literal, path-qualified under the legacy conflicts option) to literal. -/
def enumValuesBuild (opts : Options) (path : List String)
    (sanitized : List (String × String)) : List (String × String) :=
  sanitized.foldl (fun acc (k, v) =>
    let enumName := if v == "" then "Empty" else k
    if opts.oldEnumConflicts then
      aset acc (SchemaNameToTypeName (PathToTypeName (path ++ [enumName]))) v
    else
      aset acc (SchemaNameToTypeName k) v) []

/-- The object-or-empty branch of GenerateGoSchema.  A bare object is a
generic map, a wholly untyped schema is the universal type with the
optional pointer skipped; otherwise a genuine struct type is built:
additional properties are compiled (with auxiliary naming), a
properties-free object with only additional properties flattens to a
map early (skipping the name-override wrap), and populated objects get
their sorted property list and any anyOf/oneOf union merged in. -/
def generateObjectBranch (opts : Options) (g : GenFn) (schema : OSchema)
    (path : List String) (outSchema : GSchema) : Except String GenRes :=
  if schema.propsLen == 0 && !SchemaHasAdditionalProperties schema
      && schema.anyOf.isNone && schema.oneOf.isNone then
    let outSchema :=
      if schema.TypeIs "object" then setSkipOptionalPointerForContainerType opts outSchema
      else outSchema.withAttrs (fun a => { a with skipOptionalPointer := true })
    let outType := if schema.TypeIs "object" then "map[string]interface{}" else "interface{}"
    let outSchema := outSchema.withAttrs (fun a => { a with goType := outType, defineViaAlias := true })
    (xGoTypeNameWrap schema outSchema).map (fun o => (o, schema.nullable))
  else
    let outSchema := outSchema.withAttrs (fun a =>
      { a with defineViaAlias := false, hasAdditionalProperties := SchemaHasAdditionalProperties schema })
    let outSchema := outSchema.setAdditionalPropertiesType (some (GSchema.base { goType := "interface{}" }))
    let addlRes : Except String GSchema :=
      match schema.addlSchema with
      | none => .ok outSchema
      | some aref =>
        match g (some aref) path with
        | .error e => .error ("error generating type for additional properties: " ++ e)
        | .ok (additionalSchema0, _) =>
          let additionalSchema :=
            if additionalSchema0.hasAdditionalProperties || additionalSchema0.unionElements.length != 0 then
              let typeName := PathToTypeName (path ++ ["AdditionalProperties"])
              let typeDef : GTypeDef := .mk typeName (strJoin "." (path ++ ["AdditionalProperties"])) additionalSchema0
              ((additionalSchema0.withAttrs (fun a => { a with refType := typeName })).setAdditionalTypes
                (additionalSchema0.additionalTypes ++ [typeDef]))
            else additionalSchema0
          .ok ((outSchema.setAdditionalPropertiesType (some additionalSchema)).setAdditionalTypes
            (outSchema.additionalTypes ++ additionalSchema.additionalTypes))
    match addlRes with
    | .error e => .error e
    | .ok outSchema =>
      if !opts.disableFlattenAdditionalProperties && schema.propsLen == 0
          && schema.anyOf.isNone && schema.oneOf.isNone then
        let outSchema := outSchema.withAttrs (fun a => { a with hasAdditionalProperties := false })
        let outSchema := outSchema.withAttrs (fun a =>
          { a with goType := "map[string]" ++ additionalPropertiesType outSchema })
        .ok (setSkipOptionalPointerForContainerType opts outSchema, schema.nullable)
      else
        match objectPropsLoop opts g schema path (SortedSchemaKeys schema.PropertiesToMap) outSchema with
        | .error e => .error e
        | .ok outSchema =>
          let anyRes : Except String GSchema :=
            match schema.anyOf with
            | some anyOfList =>
              (generateUnionF opts g outSchema anyOfList schema.discriminator path).mapError
                (fun e => "error generating type for anyOf: " ++ e)
            | none => .ok outSchema
          match anyRes with
          | .error e => .error e
          | .ok outSchema =>
            let oneRes : Except String GSchema :=
              match schema.oneOf with
              | some oneOfList =>
                (generateUnionF opts g outSchema oneOfList schema.discriminator path).mapError
                  (fun e => "error generating type for oneOf: " ++ e)
              | none => .ok outSchema
            match oneRes with
            | .error e => .error e
            | .ok outSchema =>
              let outSchema := outSchema.withAttrs (fun a =>
                { a with goType := GenStructFromSchema opts outSchema })
              (xGoTypeNameWrap schema outSchema).map (fun o => (o, schema.nullable))

/-- The enum branch of GenerateGoSchema: the underlying primitive is
compiled first, the result is forced to a defined (non-alias) type, the
display-name table is built, and non-top-level enums are registered as
auxiliary named types (honouring the type-name override extension). -/
def generateEnumBranch (opts : Options) (g : GenFn) (schema : OSchema)
    (path : List String) (outSchema : GSchema) : Except String GenRes :=
  match oapiSchemaToGoTypeF opts g schema path outSchema with
  | .error e => .error ("error resolving primitive type: " ++ e)
  | .ok (out0, nullAfter) =>
    let outSchema := out0.withAttrs (fun a => { a with defineViaAlias := false })
    let enumValues := schema.enum.map Lit.sprintv
    let enumNames := enumNamesFromExts schema enumValues
    let sanitizedValues := SanitizeEnumNames enumNames enumValues
    let outSchema := outSchema.withAttrs (fun a =>
      { a with enumValues := enumValuesBuild opts path sanitizedValues })
    if path.length > 1 then
      let typeNameRes : Except String String :=
        match alookup schema.extensions extGoTypeName with
        | some v =>
          (extString v).mapError (fun e => "invalid value for " ++ goQuote extGoTypeName ++ ": " ++ e)
        | none => .ok (SchemaNameToTypeName (PathToTypeName path))
      match typeNameRes with
      | .error e => .error e
      | .ok typeName =>
        let typeDef : GTypeDef := .mk typeName (strJoin "." path) outSchema
        .ok (((outSchema.setAdditionalTypes (outSchema.additionalTypes ++ [typeDef])).withAttrs
          (fun a => { a with refType := typeName })), nullAfter)
    else
      .ok (outSchema, nullAfter)

/-- The body of GenerateGoSchema for a reference with a resolved value:
the optional-pointer extension is read, symbolic references short-circuit
to the referenced spelling (suppressing the alias at the defining
occurrence of a component), allOf delegates to the embedded-struct
special case or the merger, the type-override extension pins the type,
and otherwise the object, enum or primitive branch runs. -/
def generateGoSchemaBody (opts : Options) (g : GenFn) (r : ORef) (schema : OSchema)
    (path : List String) : Except String GenRes :=
  let skipRes : Except String Bool :=
    match alookup schema.extensions extPropGoTypeSkipOptionalPointer with
    | some v =>
      (extParsePropGoTypeSkipOptionalPointer v).mapError
        (fun e => "invalid value for " ++ goQuote extPropGoTypeSkipOptionalPointer ++ ": " ++ e)
    | none => .ok opts.preferSkipOptionalPointer
  match skipRes with
  | .error e => .error e
  | .ok skipOptionalPointer =>
    if IsGoTypeReference r.ref then
      match RefPathToGoType r.ref with
      | .error e => .error ("error turning reference (" ++ r.ref ++ ") into a Go type: " ++ e)
      | .ok refType =>
        let isComponentRef := strContains r.ref "#/components/schemas/"
        let isDefiningComponentSchema :=
          isComponentRef && path.length > 0 &&
            (let refName := strTrimPre r.ref "#/components/schemas/"
             path.length == 1 && path.headD "" == refName)
        .ok ((GSchema.base
          { goType := refType, refType := refType, description := schema.description,
            defineViaAlias := !isDefiningComponentSchema,
            skipOptionalPointer := skipOptionalPointer }).setOapiSchema (some schema),
          schema.nullable)
    else
      let outSchema := (GSchema.base
        { description := schema.description, skipOptionalPointer := skipOptionalPointer
        }).setOapiSchema (some schema)
      match schema.allOf with
      | some allOfRefs =>
        let (hasOnlyRefsAndSimpleInline, refCount) := scanAllOf allOfRefs true 0
        let isTopLevelSchema := path.length ≤ 1
        if hasOnlyRefsAndSimpleInline && refCount > 0 && isTopLevelSchema then
          let resultSchema := (GSchema.base
            { goType := "struct", description := schema.description }).setOapiSchema (some schema)
          match allOfEmbedLoop g path allOfRefs resultSchema with
          | .error e => .error e
          | .ok resultSchema =>
            let resultSchema :=
              if resultSchema.embeddedTypes.length > 0 || resultSchema.properties.length > 0 then
                resultSchema.withAttrs (fun a => { a with goType := GenStructFromSchema opts resultSchema })
              else resultSchema
            .ok (resultSchema, schema.nullable)
        else
          match mergeSchemasF g allOfRefs path with
          | .error e => .error ("error merging schemas: " ++ e)
          | .ok mergedSchema => .ok (mergedSchema.setOapiSchema (some schema), schema.nullable)
      | none =>
        match alookup schema.extensions extPropGoType with
        | some v =>
          match extTypeName v with
          | .error e => .error ("invalid value for " ++ goQuote extPropGoType ++ ": " ++ e)
          | .ok typeName =>
            .ok ((outSchema.withAttrs (fun a => { a with goType := typeName, defineViaAlias := true })),
              schema.nullable)
        | none =>
          let t := schema.TypeSlice
          if t.length == 0 || schema.TypeIs "object" then
            generateObjectBranch opts g schema path outSchema
          else if schema.enum.length > 0 then
            generateEnumBranch opts g schema path outSchema
          else
            match oapiSchemaToGoTypeF opts g schema path outSchema with
            | .error e => .error ("error resolving primitive type: " ++ e)
            | .ok res => .ok res

/-- GenerateGoSchema, with fuel carrying the recursion over the document
graph (the adapter wraps cyclic documents into reference-restored cells,
so every terminating Go run corresponds to a sufficiently fuelled run
here).  A nil reference or a nil value degrade without error: nil gives
the universal type, an unresolved reference compiles best-effort to the
name synthesized from the reference path, or to the universal type when
that fails. -/
def generateGoSchemaFuel (opts : Options) : Nat → Option ORef → List String → Except String GenRes
  | 0, _, _ => .error "out of fuel"
  | fuel + 1, sref, path =>
    match sref with
    | none => .ok (GSchema.base { goType := "interface{}" }, false)
    | some r =>
      match r.value with
      | none =>
        if r.ref != "" then
          match RefPathToGoType r.ref with
          | .error _ => .ok (GSchema.base { goType := "interface{}", refType := "interface{}" }, false)
          | .ok refType => .ok (GSchema.base { goType := refType, refType := refType }, false)
        else
          .ok (GSchema.base { goType := "interface{}", refType := "interface{}" }, false)
      | some schema => generateGoSchemaBody opts (generateGoSchemaFuel opts fuel) r schema path

/-- GenerateGoSchema at a given fuel. -/
def generateGoSchema (opts : Options) (fuel : Nat) (sref : Option ORef)
    (path : List String) : Except String GenRes :=
  generateGoSchemaFuel opts fuel sref path

/-- oapiSchemaToGoType with the recursive compiler at a given fuel. -/
def oapiSchemaToGoType (opts : Options) (fuel : Nat) (schema : OSchema)
    (path : List String) (outSchema : GSchema) : Except String GenRes :=
  oapiSchemaToGoTypeF opts (generateGoSchemaFuel opts fuel) schema path outSchema

/-- mergeSchemas with the recursive compiler at a given fuel. -/
def mergeSchemas (opts : Options) (fuel : Nat) (allOf : List ORef)
    (path : List String) : Except String GSchema :=
  mergeSchemasF (generateGoSchemaFuel opts fuel) allOf path

/-- generateUnion with the recursive compiler at a given fuel. -/
def generateUnion (opts : Options) (fuel : Nat) (outSchema : GSchema)
    (elements : List ORef) (discriminator : Option DiscIn) (path : List String) :
    Except String GSchema :=
  generateUnionF opts (generateGoSchemaFuel opts fuel) outSchema elements discriminator path

/-- mergeAllOf: folds every element value into one schema starting from
the zero schema. -/
def mergeAllOf (allOf : List ORef) : Except String OSchema :=
  let zero : OSchema := .mk {} none none none none none none
  let rec go : List ORef → OSchema → Except String OSchema
    | [], acc => .ok acc
    | r :: rest, acc =>
      match r.value with
      | none => .error "nil schema in allOf merge"
      | some v =>
        match mergeOpenapiSchemas acc v true with
        | .error e => .error ("error merging schemas for AllOf: " ++ e)
        | .ok merged => go rest merged
  go allOf zero

/-! ### The document model walked by the prune pass (prune.go)

Only the parts of the adapter document read by the walkers are modelled;
Go maps become association lists walked in list order. -/

structure ExampleRefM where
  ref : String := ""
  hasValue : Bool := true
  deriving DecidableEq, Repr

structure LinkRefM where
  ref : String := ""
  hasValue : Bool := true
  deriving DecidableEq, Repr

structure SecuritySchemeRefM where
  ref : String := ""
  hasValue : Bool := true
  deriving DecidableEq, Repr

/-- A header value: the walker only descends into its schema. -/
structure HeaderValM where
  schema : Option ORef := none

structure HeaderRefM where
  ref : String := ""
  value : Option HeaderValM := none

structure MediaTypeM where
  schema : Option ORef := none
  examples : List ExampleRefM := []

structure ParamValM where
  schema : Option ORef := none
  examples : List ExampleRefM := []
  content : List MediaTypeM := []

structure ParameterRefM where
  ref : String := ""
  value : Option ParamValM := none

structure RequestBodyRefM where
  ref : String := ""
  value : Option (List MediaTypeM) := none

structure RespValM where
  headers : List HeaderRefM := []
  content : List MediaTypeM := []
  links : List LinkRefM := []

structure ResponseRefM where
  ref : String := ""
  value : Option RespValM := none

mutual
inductive PathItemM where
  | mk (parameters : List ParameterRefM) (operations : List OperationM) : PathItemM
inductive OperationM where
  | mk (parameters : List ParameterRefM) (requestBody : Option RequestBodyRefM)
       (responses : List ResponseRefM) (callbacks : List CallbackRefM) : OperationM
inductive CallbackRefM where
  | mk (ref : String) (value : Option (List PathItemM)) : CallbackRefM
end

def PathItemM.parameters : PathItemM → List ParameterRefM
  | .mk p _ => p

def PathItemM.operations : PathItemM → List OperationM
  | .mk _ o => o

def OperationM.parameters : OperationM → List ParameterRefM
  | .mk p _ _ _ => p

def OperationM.requestBody : OperationM → Option RequestBodyRefM
  | .mk _ r _ _ => r

def OperationM.responses : OperationM → List ResponseRefM
  | .mk _ _ r _ => r

def OperationM.callbacks : OperationM → List CallbackRefM
  | .mk _ _ _ c => c

def CallbackRefM.ref : CallbackRefM → String
  | .mk r _ => r

def CallbackRefM.value : CallbackRefM → Option (List PathItemM)
  | .mk _ v => v

structure ComponentsM where
  schemas : List (String × ORef) := []
  parameters : List (String × ParameterRefM) := []
  headers : List (String × HeaderRefM) := []
  requestBodies : List (String × RequestBodyRefM) := []
  responses : List (String × ResponseRefM) := []
  securitySchemes : List (String × SecuritySchemeRefM) := []
  examples : List (String × ExampleRefM) := []
  links : List (String × LinkRefM) := []
  callbacks : List (String × CallbackRefM) := []

/-- The wrapped document as the prune pass sees it. -/
structure TDoc where
  paths : Option (List (String × PathItemM)) := none
  components : Option ComponentsM := none

/-! ### The reference-recording walk (walkSwagger with the findComponentRefs
callback)

The callback of findComponentRefs records a non-empty reference string
and stops descending; an empty reference continues into the children.
The walkers are specialized to that callback. -/

/-- stringInSlice. -/
def stringInSlice (a : String) (list : List String) : Bool :=
  list.contains a

/-- walkSchemaRefWithVisited, specialized to the recording callback.  The
visited set holds node identities of schema values; the fuel stands for
the termination the visited set guarantees in Go. -/
def walkSchemaAux : Nat → Option ORef → List String × List Nat → List String × List Nat
  | 0, _, st => st
  | _ + 1, none, st => st
  | fuel + 1, some r, (refs, visited) =>
    let alreadyVisited :=
      match r.value with
      | some v => visited.contains v.nodeId
      | none => false
    if alreadyVisited then (refs, visited)
    else
      let visited :=
        match r.value with
        | some v => visited ++ [v.nodeId]
        | none => visited
      if r.ref != "" then (refs ++ [r.ref], visited)
      else
        match r.value with
        | none => (refs, visited)
        | some v =>
          let st := r.oneOf.foldl (fun st c => walkSchemaAux fuel (some c) st) (refs, visited)
          let st := r.anyOf.foldl (fun st c => walkSchemaAux fuel (some c) st) st
          let st := r.allOf.foldl (fun st c => walkSchemaAux fuel (some c) st) st
          let st := walkSchemaAux fuel r.nt st
          let st := walkSchemaAux fuel r.items st
          let st := (v.properties.getD []).foldl (fun st (_, c) => walkSchemaAux fuel (some c) st) st
          walkSchemaAux fuel r.addlSchema st

/-- walkSchemaRef: a fresh visited set per top-level schema walk. -/
def walkSchemaRefM (fuel : Nat) (ref : Option ORef) (refs : List String) : List String :=
  (walkSchemaAux fuel ref (refs, [])).1

/-- doFn of findComponentRefs applied to a non-schema reference wrapper:
records a non-empty reference and reports whether to continue. -/
def doRecord (refs : List String) (r : String) : List String × Bool :=
  if r != "" then (refs ++ [r], false) else (refs, true)

def walkExampleRefM (ref : Option ExampleRefM) (refs : List String) : List String :=
  match ref with
  | none => refs
  | some e => (doRecord refs e.ref).1

def walkLinkRefM (ref : Option LinkRefM) (refs : List String) : List String :=
  match ref with
  | none => refs
  | some l => (doRecord refs l.ref).1

def walkSecuritySchemeRefM (ref : Option SecuritySchemeRefM) (refs : List String) : List String :=
  match ref with
  | none => refs
  | some s => (doRecord refs s.ref).1

/-- The media-type descent shared by parameter, request-body and response
walking: the schema, then the examples. -/
def walkMediaTypeM (fuel : Nat) (refs : List String) (mt : MediaTypeM) : List String :=
  let refs := walkSchemaRefM fuel mt.schema refs
  mt.examples.foldl (fun refs e => walkExampleRefM (some e) refs) refs

def walkHeaderRefM (fuel : Nat) (ref : Option HeaderRefM) (refs : List String) : List String :=
  match ref with
  | none => refs
  | some h =>
    let (refs, cont) := doRecord refs h.ref
    if !cont then refs
    else
      match h.value with
      | none => refs
      | some v => walkSchemaRefM fuel v.schema refs

def walkParameterRefM (fuel : Nat) (ref : Option ParameterRefM) (refs : List String) : List String :=
  match ref with
  | none => refs
  | some p =>
    let (refs, cont) := doRecord refs p.ref
    if !cont then refs
    else
      match p.value with
      | none => refs
      | some v =>
        let refs := walkSchemaRefM fuel v.schema refs
        let refs := v.examples.foldl (fun refs e => walkExampleRefM (some e) refs) refs
        v.content.foldl (walkMediaTypeM fuel) refs

def walkRequestBodyRefM (fuel : Nat) (ref : Option RequestBodyRefM) (refs : List String) : List String :=
  match ref with
  | none => refs
  | some rb =>
    let (refs, cont) := doRecord refs rb.ref
    if !cont then refs
    else
      match rb.value with
      | none => refs
      | some content => content.foldl (walkMediaTypeM fuel) refs

def walkResponseRefM (fuel : Nat) (ref : Option ResponseRefM) (refs : List String) : List String :=
  match ref with
  | none => refs
  | some rp =>
    let (refs, cont) := doRecord refs rp.ref
    if !cont then refs
    else
      match rp.value with
      | none => refs
      | some v =>
        let refs := v.headers.foldl (fun refs h => walkHeaderRefM fuel (some h) refs) refs
        let refs := v.content.foldl (walkMediaTypeM fuel) refs
        v.links.foldl (fun refs l => walkLinkRefM (some l) refs) refs

/-- The mutually recursive operation, callback and path-item walks,
defunctionalized over one fuel (callbacks contain path items whose
operations contain callbacks). -/
inductive WalkNode where
  | op (o : Option OperationM)
  | cb (c : Option CallbackRefM)
  | pitem (p : PathItemM)

/-- walkOperation and walkCallbackRef (and the inline path-item walking of
both walkCallbackRef and walkSwagger). -/
def walkOC (sfuel : Nat) : Nat → WalkNode → List String → List String
  | 0, _, refs => refs
  | _ + 1, .op none, refs => refs
  | fuel + 1, .op (some o), refs =>
    let refs := o.parameters.foldl (fun refs pr => walkParameterRefM sfuel (some pr) refs) refs
    let refs := walkRequestBodyRefM sfuel o.requestBody refs
    let refs := o.responses.foldl (fun refs rp => walkResponseRefM sfuel (some rp) refs) refs
    o.callbacks.foldl (fun refs c => walkOC sfuel fuel (.cb (some c)) refs) refs
  | _ + 1, .cb none, refs => refs
  | fuel + 1, .cb (some c), refs =>
    let (refs, cont) := doRecord refs c.ref
    if !cont then refs
    else
      match c.value with
      | none => refs
      | some pathItems =>
        pathItems.foldl (fun refs pi => walkOC sfuel fuel (.pitem pi) refs) refs
  | fuel + 1, .pitem pi, refs =>
    let refs := pi.parameters.foldl (fun refs pr => walkParameterRefM sfuel (some pr) refs) refs
    pi.operations.foldl (fun refs o => walkOC sfuel fuel (.op (some o)) refs) refs

/-- walkComponents: every component map is walked in order. -/
def walkComponentsM (fuel : Nat) (components : Option ComponentsM) (refs : List String) : List String :=
  match components with
  | none => refs
  | some c =>
    let refs := c.schemas.foldl (fun refs (_, s) => walkSchemaRefM fuel (some s) refs) refs
    let refs := c.parameters.foldl (fun refs (_, p) => walkParameterRefM fuel (some p) refs) refs
    let refs := c.headers.foldl (fun refs (_, h) => walkHeaderRefM fuel (some h) refs) refs
    let refs := c.requestBodies.foldl (fun refs (_, rb) => walkRequestBodyRefM fuel (some rb) refs) refs
    let refs := c.responses.foldl (fun refs (_, rp) => walkResponseRefM fuel (some rp) refs) refs
    let refs := c.securitySchemes.foldl (fun refs (_, s) => walkSecuritySchemeRefM (some s) refs) refs
    let refs := c.examples.foldl (fun refs (_, e) => walkExampleRefM (some e) refs) refs
    let refs := c.links.foldl (fun refs (_, l) => walkLinkRefM (some l) refs) refs
    c.callbacks.foldl (fun refs (_, cb) => walkOC fuel fuel (.cb (some cb)) refs) refs

/-- walkSwagger: nothing is walked when the path map is absent; otherwise
every path item (parameters, then operations) and then the components. -/
def walkSwagger (fuel : Nat) (t : TDoc) : List String :=
  match t.paths with
  | none => []
  | some paths =>
    let refs := paths.foldl (fun refs (_, p) =>
      let refs := p.parameters.foldl (fun refs pr => walkParameterRefM fuel (some pr) refs) refs
      p.operations.foldl (fun refs o => walkOC fuel fuel (.op (some o)) refs) refs) []
    walkComponentsM fuel t.components refs

/-- findComponentRefs: the recording walk, followed by the temporary fix
that marks every named component schema as referenced (because the
underlying parser auto-resolves references, the walk alone under-reports
schema usage; the fix conservatively prevents over-pruning). -/
def findComponentRefs (fuel : Nat) (t : TDoc) : List String :=
  let refs := walkSwagger fuel t
  match t.components with
  | none => refs
  | some c =>
    c.schemas.foldl (fun refs (schemaName, _) =>
      let schemaRef := "#/components/schemas/" ++ schemaName
      if refs.contains schemaRef then refs else refs ++ [schemaRef]) refs

/-- removeOrphanedComponents: deletes every schema, parameter,
request-body, response, header, example, link and callback component
whose canonical reference string is not among the recorded references,
returning the new document and the number of deletions.  Security-scheme
components are exempt: they are referenced by name, not by reference
string. -/
def removeOrphanedComponents (t : TDoc) (refs : List String) : TDoc × Nat :=
  match t.components with
  | none => (t, 0)
  | some c =>
    let keepSchemas := c.schemas.filter (fun kv => stringInSlice ("#/components/schemas/" ++ kv.1) refs)
    let keepParameters := c.parameters.filter (fun kv => stringInSlice ("#/components/parameters/" ++ kv.1) refs)
    let keepRequestBodies := c.requestBodies.filter (fun kv => stringInSlice ("#/components/requestBodies/" ++ kv.1) refs)
    let keepResponses := c.responses.filter (fun kv => stringInSlice ("#/components/responses/" ++ kv.1) refs)
    let keepHeaders := c.headers.filter (fun kv => stringInSlice ("#/components/headers/" ++ kv.1) refs)
    let keepExamples := c.examples.filter (fun kv => stringInSlice ("#/components/examples/" ++ kv.1) refs)
    let keepLinks := c.links.filter (fun kv => stringInSlice ("#/components/links/" ++ kv.1) refs)
    let keepCallbacks := c.callbacks.filter (fun kv => stringInSlice ("#/components/callbacks/" ++ kv.1) refs)
    let countRemoved :=
      (c.schemas.length - keepSchemas.length) +
      (c.parameters.length - keepParameters.length) +
      (c.requestBodies.length - keepRequestBodies.length) +
      (c.responses.length - keepResponses.length) +
      (c.headers.length - keepHeaders.length) +
      (c.examples.length - keepExamples.length) +
      (c.links.length - keepLinks.length) +
      (c.callbacks.length - keepCallbacks.length)
    ({ t with components := some { c with
        schemas := keepSchemas, parameters := keepParameters,
        requestBodies := keepRequestBodies, responses := keepResponses,
        headers := keepHeaders, examples := keepExamples,
        links := keepLinks, callbacks := keepCallbacks } }, countRemoved)

/-- The number of prunable component entries of a document. -/
def componentCount (t : TDoc) : Nat :=
  match t.components with
  | none => 0
  | some c =>
    c.schemas.length + c.parameters.length + c.requestBodies.length + c.responses.length +
      c.headers.length + c.examples.length + c.links.length + c.callbacks.length

/-- One iteration of the prune loop: record references, then delete the
orphaned components. -/
def prunePass (wfuel : Nat) (t : TDoc) : TDoc × Nat :=
  removeOrphanedComponents t (findComponentRefs wfuel t)

/-- The prune loop: repeat passes until one deletes nothing.  The loop
fuel bounds the iterations (one more than the component count always
suffices, since every continuing pass deletes at least one entry). -/
def pruneLoop (wfuel : Nat) : Nat → TDoc → TDoc
  | 0, t => t
  | n + 1, t =>
    let (t', countRemoved) := prunePass wfuel t
    if countRemoved < 1 then t else pruneLoop wfuel n t'

/-- pruneUnusedComponents: iterate prune passes to the fixed point. -/
def pruneUnusedComponents (wfuel : Nat) (t : TDoc) : TDoc :=
  pruneLoop wfuel (componentCount t + 1) t

/-! ### The duplicate-type-name resolver -/

/-- Modelled from the spec: autoRenameType (defined in a repository file
not among the provided sources; its tests are).  Numeric suffixes 2
through 10 are probed in increasing order against the existing type
names; the first free candidate is returned, and exhaustion of the probe
bound yields the empty sentinel name instead of looping. -/
def autoRenameProbe (original : String) (existingTypes : List String) : List Nat → String
  | [] => ""
  | i :: rest =>
    let candidate := original ++ toString i
    if existingTypes.contains candidate then autoRenameProbe original existingTypes rest
    else candidate

/-- Modelled from the spec: autoRenameType, probing suffixes 2..10. -/
def autoRenameType (original : String) (existingTypes : List String) : String :=
  autoRenameProbe original existingTypes [2, 3, 4, 5, 6, 7, 8, 9, 10]

/-! ### Structural lemmas about the output model -/

@[simp] theorem GSchema.attrs_base (a : GAttrs) : (GSchema.base a).attrs = a := rfl

@[simp] theorem GSchema.arrayType_base (a : GAttrs) : (GSchema.base a).arrayType = none := rfl

@[simp] theorem GSchema.additionalPropertiesType_base (a : GAttrs) :
    (GSchema.base a).additionalPropertiesType = none := rfl

@[simp] theorem GSchema.properties_base (a : GAttrs) : (GSchema.base a).properties = [] := rfl

@[simp] theorem GSchema.additionalTypes_base (a : GAttrs) : (GSchema.base a).additionalTypes = [] := rfl

@[simp] theorem GSchema.oapiSchema_base (a : GAttrs) : (GSchema.base a).oapiSchema = none := rfl

@[simp] theorem GSchema.attrs_withAttrs (s : GSchema) (f : GAttrs → GAttrs) :
    (s.withAttrs f).attrs = f s.attrs := by cases s; rfl

@[simp] theorem GSchema.arrayType_withAttrs (s : GSchema) (f : GAttrs → GAttrs) :
    (s.withAttrs f).arrayType = s.arrayType := by cases s; rfl

@[simp] theorem GSchema.additionalPropertiesType_withAttrs (s : GSchema) (f : GAttrs → GAttrs) :
    (s.withAttrs f).additionalPropertiesType = s.additionalPropertiesType := by cases s; rfl

@[simp] theorem GSchema.properties_withAttrs (s : GSchema) (f : GAttrs → GAttrs) :
    (s.withAttrs f).properties = s.properties := by cases s; rfl

@[simp] theorem GSchema.additionalTypes_withAttrs (s : GSchema) (f : GAttrs → GAttrs) :
    (s.withAttrs f).additionalTypes = s.additionalTypes := by cases s; rfl

@[simp] theorem GSchema.oapiSchema_withAttrs (s : GSchema) (f : GAttrs → GAttrs) :
    (s.withAttrs f).oapiSchema = s.oapiSchema := by cases s; rfl

@[simp] theorem GSchema.attrs_setArrayType (s : GSchema) (x : Option GSchema) :
    (s.setArrayType x).attrs = s.attrs := by cases s; rfl

@[simp] theorem GSchema.attrs_setAdditionalPropertiesType (s : GSchema) (x : Option GSchema) :
    (s.setAdditionalPropertiesType x).attrs = s.attrs := by cases s; rfl

@[simp] theorem GSchema.attrs_setProperties (s : GSchema) (x : List GProperty) :
    (s.setProperties x).attrs = s.attrs := by cases s; rfl

@[simp] theorem GSchema.attrs_setAdditionalTypes (s : GSchema) (x : List GTypeDef) :
    (s.setAdditionalTypes x).attrs = s.attrs := by cases s; rfl

@[simp] theorem GSchema.attrs_setOapiSchema (s : GSchema) (x : Option OSchema) :
    (s.setOapiSchema x).attrs = s.attrs := by cases s; rfl

@[simp] theorem GSchema.properties_setProperties (s : GSchema) (x : List GProperty) :
    (s.setProperties x).properties = x := by cases s; rfl

@[simp] theorem GSchema.properties_setAdditionalTypes (s : GSchema) (x : List GTypeDef) :
    (s.setAdditionalTypes x).properties = s.properties := by cases s; rfl

@[simp] theorem GSchema.properties_setOapiSchema (s : GSchema) (x : Option OSchema) :
    (s.setOapiSchema x).properties = s.properties := by cases s; rfl

@[simp] theorem GSchema.additionalTypes_setAdditionalTypes (s : GSchema) (x : List GTypeDef) :
    (s.setAdditionalTypes x).additionalTypes = x := by cases s; rfl

@[simp] theorem GSchema.additionalTypes_setProperties (s : GSchema) (x : List GProperty) :
    (s.setProperties x).additionalTypes = s.additionalTypes := by cases s; rfl

@[simp] theorem GSchema.additionalTypes_setOapiSchema (s : GSchema) (x : Option OSchema) :
    (s.setOapiSchema x).additionalTypes = s.additionalTypes := by cases s; rfl

@[simp] theorem GSchema.defineViaAlias_eq (s : GSchema) : s.defineViaAlias = s.attrs.defineViaAlias := rfl

@[simp] theorem GSchema.goType_eq (s : GSchema) : s.goType = s.attrs.goType := rfl

@[simp] theorem GSchema.refType_eq (s : GSchema) : s.refType = s.attrs.refType := rfl

@[simp] theorem GSchema.skipOptionalPointer_eq (s : GSchema) :
    s.skipOptionalPointer = s.attrs.skipOptionalPointer := rfl

@[simp] theorem GSchema.discriminator_eq (s : GSchema) : s.discriminator = s.attrs.discriminator := rfl

@[simp] theorem GSchema.unionElements_eq (s : GSchema) : s.unionElements = s.attrs.unionElements := rfl

@[simp] theorem GSchema.embeddedTypes_eq (s : GSchema) : s.embeddedTypes = s.attrs.embeddedTypes := rfl

@[simp] theorem GSchema.enumValues_eq (s : GSchema) : s.enumValues = s.attrs.enumValues := rfl

@[simp] theorem GSchema.hasAdditionalProperties_eq (s : GSchema) :
    s.hasAdditionalProperties = s.attrs.hasAdditionalProperties := rfl

@[simp] theorem OSchema.sattrs_withAttrs (s : OSchema) (f : SAttrs → SAttrs) :
    (s.withAttrs f).sattrs = f s.sattrs := by cases s; rfl

@[simp] theorem OSchema.oprops_withAttrs (s : OSchema) (f : SAttrs → SAttrs) :
    (s.withAttrs f).properties = s.properties := by cases s; rfl

@[simp] theorem OSchema.items_withAttrs (s : OSchema) (f : SAttrs → SAttrs) :
    (s.withAttrs f).items = s.items := by cases s; rfl

@[simp] theorem OSchema.addlSchema_withAttrs (s : OSchema) (f : SAttrs → SAttrs) :
    (s.withAttrs f).addlSchema = s.addlSchema := by cases s; rfl

@[simp] theorem OSchema.allOf_withAttrs (s : OSchema) (f : SAttrs → SAttrs) :
    (s.withAttrs f).allOf = s.allOf := by cases s; rfl

@[simp] theorem OSchema.oneOf_withAttrs (s : OSchema) (f : SAttrs → SAttrs) :
    (s.withAttrs f).oneOf = s.oneOf := by cases s; rfl

@[simp] theorem OSchema.anyOf_withAttrs (s : OSchema) (f : SAttrs → SAttrs) :
    (s.withAttrs f).anyOf = s.anyOf := by cases s; rfl

/-- Projection through a successful compiler result, for closed theorems
about concrete runs. -/
def genOkProj {α : Type} (f : GenRes → α) : Except String GenRes → Option α
  | .ok r => some (f r)
  | .error _ => none

/-- Whether an Except value is a success. -/
def exceptIsOk {ε α : Type} : Except ε α → Bool
  | .ok _ => true
  | .error _ => false

/-- Appending different suffixes to the same string yields different strings. -/
theorem strAppendNeOfNe (N : String) {a b : String} (h : a ≠ b) : N ++ a ≠ N ++ b := fun he =>
  h (String.ext (List.append_cancel_left
    (by rw [← String.data_append, ← String.data_append, he])))

/-- Appending a non-empty suffix changes a string. -/
theorem strAppendNeSelf (N : String) {t : String} (h : t.length ≠ 0) : N ++ t ≠ N := fun he => by
  have hlen := congrArg String.length he
  rw [String.length_append] at hlen
  omega

/-! ### Theorems for the frozen claims -/

/-- C8: the name-collision resolver probes numeric suffixes 2 through 10
in increasing order: with a pool of exactly N and N2, a unique name for N
is N3; with a pool of N and N2 through N10, every probe collides and the
empty sentinel name is returned instead of looping. -/
theorem c8_name_collision_probing (N : String) :
    autoRenameType N [N, N ++ "2"] = N ++ "3" ∧
    autoRenameType N [N, N ++ "2", N ++ "3", N ++ "4", N ++ "5", N ++ "6",
      N ++ "7", N ++ "8", N ++ "9", N ++ "10"] = "" := by
  have t2 : (toString (2 : Nat)) = "2" := by decide
  have t3 : (toString (3 : Nat)) = "3" := by decide
  have t4 : (toString (4 : Nat)) = "4" := by decide
  have t5 : (toString (5 : Nat)) = "5" := by decide
  have t6 : (toString (6 : Nat)) = "6" := by decide
  have t7 : (toString (7 : Nat)) = "7" := by decide
  have t8 : (toString (8 : Nat)) = "8" := by decide
  have t9 : (toString (9 : Nat)) = "9" := by decide
  have t10 : (toString (10 : Nat)) = "10" := by decide
  constructor
  · simp [autoRenameType, autoRenameProbe, t2, t3,
      strAppendNeSelf N (show ("2" : String).length ≠ 0 by decide),
      strAppendNeSelf N (show ("3" : String).length ≠ 0 by decide),
      strAppendNeOfNe N (show ("3" : String) ≠ "2" by decide)]
  · simp [autoRenameType, autoRenameProbe, t2, t3, t4, t5, t6, t7, t8, t9, t10]

/-! ### C1: property conflicts during allOf merging -/

def c1PropString : ORef :=
  NewSchemaRef "" (some (.mk { typ := ["string"] } none none none none none none))

def c1PropInteger : ORef :=
  NewSchemaRef "" (some (.mk { typ := ["integer"] } none none none none none none))

def c1s1 : OSchema := .mk {} (some [("p", c1PropString)]) none none none none none

def c1s2 : OSchema := .mk {} (some [("p", c1PropInteger)]) none none none none none

/-- C1 counterexample: merging two schemas whose property p has declared
type string in one and integer in the other does not fail with an
incompatible-property-redefinition error; the merge succeeds and silently
keeps the first property (type string). -/
theorem c1_counterexample :
    exceptIsOk (mergeOpenapiSchemas c1s1 c1s2 true) = true ∧
    ((mergeOpenapiSchemas c1s1 c1s2 true).toOption.bind (fun r =>
      (alookup (r.properties.getD []) "p").bind (fun v => v.value.map OSchema.typ)))
      = some ["string"] := by
  exact ⟨rfl, rfl⟩

/-- PropertiesEqual is symmetric. -/
theorem propertiesEqual_symm {a b : GProperty} (h : PropertiesEqual a b = true) :
    PropertiesEqual b a = true := by
  simp only [PropertiesEqual, Bool.and_eq_true, beq_iff_eq] at h ⊢
  exact ⟨⟨h.1.1.symm, h.1.2.symm⟩, h.2.symm⟩

/-- PropertiesEqual is transitive. -/
theorem propertiesEqual_trans {x a b : GProperty} (h1 : PropertiesEqual x a = true)
    (h2 : PropertiesEqual a b = true) : PropertiesEqual x b = true := by
  simp only [PropertiesEqual, Bool.and_eq_true, beq_iff_eq] at h1 h2 ⊢
  exact ⟨⟨h1.1.1.trans h2.1.1, h1.1.2.trans h2.1.2⟩, h1.2.trans h2.2⟩

/-- Adding a property equal to an already accepted one never conflicts. -/
theorem addProperty_equal_after {s : GSchema} {a b : GProperty}
    (h : PropertiesEqual a b = true) {s' : GSchema} (hok : s.AddProperty a = .ok s') :
    exceptIsOk (s'.AddProperty b) = true := by
  unfold GSchema.AddProperty at hok
  cases hfind : s.properties.find?
      (fun e => e.jsonFieldName == a.jsonFieldName && !(PropertiesEqual e a)) with
  | some e => rw [hfind] at hok; exact absurd hok (by simp)
  | none =>
    rw [hfind] at hok
    have hs' : s' = s.setProperties (s.properties ++ [a]) := by
      injection hok with h'; exact h'.symm
    subst hs'
    have hnone : ∀ x ∈ s.properties,
        ¬(x.jsonFieldName == a.jsonFieldName && !(PropertiesEqual x a)) = true := by
      intro x hx
      exact List.find?_eq_none.mp hfind x hx
    have hname : a.jsonFieldName = b.jsonFieldName := by
      simp only [PropertiesEqual, Bool.and_eq_true, beq_iff_eq] at h
      exact h.1.1
    have hnone' : (s.properties ++ [a]).find?
        (fun e => e.jsonFieldName == b.jsonFieldName && !(PropertiesEqual e b)) = none := by
      rw [List.find?_eq_none]
      intro x hx
      rcases List.mem_append.mp hx with hxl | hxr
      · intro hcontra
        simp only [Bool.and_eq_true] at hcontra
        obtain ⟨hn, hne⟩ := hcontra
        have hxa : (x.jsonFieldName == a.jsonFieldName) = true := by
          rw [beq_iff_eq] at hn ⊢
          rw [hn, ← hname]
        have hpe : PropertiesEqual x a = true := by
          by_contra hno
          have hb : (!PropertiesEqual x a) = true := by
            cases hpa : PropertiesEqual x a with
            | true => exact absurd hpa hno
            | false => rfl
          exact hnone x hxl (by rw [hxa, hb]; rfl)
        have : PropertiesEqual x b = true := propertiesEqual_trans hpe h
        rw [this] at hne
        simp at hne
      · have hxeq : x = a := by simpa using hxr
        subst hxeq
        intro hcontra
        simp only [Bool.and_eq_true] at hcontra
        obtain ⟨_, hne⟩ := hcontra
        rw [h] at hne
        simp at hne
    unfold GSchema.AddProperty
    rw [GSchema.properties_setProperties, hnone']
    rfl

/-- C1 amended: the active merge path never raises a property-conflict
error (a same-name property with a different type is silently kept or
replaced by the preference rules); the incompatible-redefinition error
lives in Schema.AddProperty, which rejects same-name non-equal properties
and, for two properties with identical name, compiled type spelling and
required flag, never raises a conflict regardless of call order. -/
theorem c1_merge_conflicts_amended :
    (∀ (s1 s2 : OSchema) (b : Bool), ∃ r, mergeOpenapiSchemas s1 s2 b = .ok r) ∧
    (∀ (s : GSchema) (a b : GProperty), PropertiesEqual a b = true →
      ∀ s', s.AddProperty a = .ok s' → exceptIsOk (s'.AddProperty b) = true) ∧
    (∀ (s : GSchema) (a b : GProperty), PropertiesEqual a b = true →
      ∀ s', s.AddProperty b = .ok s' → exceptIsOk (s'.AddProperty a) = true) := by
  refine ⟨fun s1 s2 b => ⟨_, rfl⟩, ?_, ?_⟩
  · intro s a b h s' hok
    exact addProperty_equal_after h hok
  · intro s a b h s' hok
    exact addProperty_equal_after (propertiesEqual_symm h) hok

def c1wa : GProperty := .mk { jsonFieldName := "id", required := true } (GSchema.base { goType := "string" })

def c1wb : GProperty := .mk { jsonFieldName := "id", required := true, description := "other" }
  (GSchema.base { goType := "string" })

/-- C1 amended, witnessed at a concrete input: two equal properties (same
name, type spelling and required flag, different description) are
accepted in sequence without a conflict error. -/
theorem c1_merge_conflicts_amended_witness :
    PropertiesEqual c1wa c1wb = true ∧
    GSchema.zero.AddProperty c1wa = .ok (GSchema.zero.setProperties ([] ++ [c1wa])) ∧
    exceptIsOk ((GSchema.zero.setProperties ([] ++ [c1wa])).AddProperty c1wb) = true := by
  refine ⟨by decide, rfl, ?_⟩
  exact c1_merge_conflicts_amended.2.1 GSchema.zero c1wa c1wb (by decide)
    (GSchema.zero.setProperties ([] ++ [c1wa])) rfl

/-! ### C3: singleton allOf versus direct compilation -/

def c3PetVal : OSchema := .mk { nodeId := 1, typ := ["object"] } (some []) none none none none none

def c3PetRef : ORef := NewSchemaRef "#/components/schemas/Pet" (some c3PetVal)

def c3Wrapper : ORef := NewSchemaRef "" (some (.mk {} none none none (some [c3PetRef]) none none))

/-- C3 counterexample: at top level, a schema whose allOf holds exactly
one reference element compiles to an embedded struct (embedded type Pet,
no reference name, defined type), while compiling the element directly
yields an alias to Pet — the two type descriptors differ. -/
theorem c3_counterexample :
    genOkProj (fun r => (r.1.embeddedTypes, r.1.refType, r.1.defineViaAlias))
      (generateGoSchema {} 3 (some c3Wrapper) ["Foo"]) = some (["Pet"], "", false) ∧
    genOkProj (fun r => (r.1.embeddedTypes, r.1.refType, r.1.defineViaAlias))
      (generateGoSchema {} 3 (some c3PetRef) ["Foo"]) = some ([], "Pet", true) := by
  exact ⟨rfl, rfl⟩

/-- C3 amended: at the merge contract, merging a one-element composition
list is exactly direct compilation of that element; the allOf branch of
the compiler reaches the merge only on its fallback path (at top level
with a reference element it synthesizes an embedded struct instead, as
the counterexample records). -/
theorem c3_singleton_merge_identity (opts : Options) (fuel : Nat) (e : ORef) (path : List String) :
    mergeSchemas opts fuel [e] path = (generateGoSchema opts fuel (some e) path).map Prod.fst := rfl

/-! ### C9: degraded compilation of unresolved and absent references -/

def c9ref : ORef := NewSchemaRef "#/components/schemas/Foo" none

/-- C9 counterexample: a nil schema reference compiles with no error to
the universal type but with the define-via-alias flag UNSET (the claim
says the result is marked alias), and a reference whose value is missing
but whose path parses compiles to the referenced type name Foo, not to
the universal type. -/
theorem c9_counterexample :
    genOkProj (fun r => (r.1.goType, r.1.defineViaAlias)) (generateGoSchema {} 1 none [])
      = some ("interface{}", false) ∧
    genOkProj (fun r => r.1.goType) (generateGoSchema {} 1 (some c9ref) []) = some "Foo" := by
  exact ⟨rfl, rfl⟩

/-- C9 amended: compilation of a nil reference or of a reference with a
missing value never errors: nil gives the universal type, a missing
value gives the type name synthesized from the reference path when that
parses and the universal type otherwise; in all these degraded cases the
alias flag is left unset. -/
theorem c9_degraded_refs_amended (opts : Options) (fuel : Nat) (path : List String)
    (rf : ORef) (h : rf.value = none) :
    generateGoSchemaFuel opts (fuel + 1) none path
      = .ok (GSchema.base { goType := "interface{}" }, false) ∧
    generateGoSchemaFuel opts (fuel + 1) (some rf) path =
      .ok (match RefPathToGoType rf.ref with
        | .ok t => (GSchema.base { goType := t, refType := t }, false)
        | .error _ => (GSchema.base { goType := "interface{}", refType := "interface{}" }, false)) := by
  constructor
  · rfl
  · cases rf with
    | mk ref value o a al n i ad =>
      simp only [ORef.value] at h
      subst h
      by_cases href : ref = ""
      · subst href
        rfl
      · have hne : (ref != "") = true := by
          simp [href]
        simp only [generateGoSchemaFuel, ORef.value, ORef.ref, hne]
        cases hrt : RefPathToGoType ref with
        | ok t => simp
        | error e => simp

/-- C9 amended, witnessed at a concrete unresolved reference. -/
theorem c9_degraded_refs_amended_witness :
    c9ref.value = none ∧
    (generateGoSchemaFuel {} 1 none []
        = .ok (GSchema.base { goType := "interface{}" }, false) ∧
      generateGoSchemaFuel {} 1 (some c9ref) [] =
        .ok (match RefPathToGoType c9ref.ref with
          | .ok t => (GSchema.base { goType := t, refType := t }, false)
          | .error _ => (GSchema.base { goType := "interface{}", refType := "interface{}" }, false))) := by
  exact ⟨rfl, c9_degraded_refs_amended {} 0 [] c9ref rfl⟩

/-! ### C4: type-set with null versus nullable flag -/

/-- On success, the per-type dispatch reports the nullable flag of the
schema it was given. -/
theorem core_ok_nullable {opts : Options} {g : GenFn} {s : OSchema} {path : List String}
    {out : GSchema} {tMsg : List String} {r : GSchema} {b : Bool}
    (h : oapiSchemaToGoTypeCore opts g s path out tMsg = .ok (r, b)) : b = s.nullable := by
  unfold oapiSchemaToGoTypeCore at h
  cases hx : oapiSchemaToGoTypeCoreS opts g s path out tMsg with
  | error e => rw [hx] at h; exact Except.noConfusion h
  | ok o =>
    rw [hx] at h
    simp only [Except.map, Except.ok.injEq, Prod.mk.injEq] at h
    exact h.2.symm

/-- The per-type dispatch depends on the schema only through its format,
items and the five type-membership tests. -/
theorem coreS_congr (opts : Options) (g : GenFn) (path : List String) (out : GSchema)
    (tMsg : List String) {s1 s2 : OSchema}
    (hfmt : s1.format = s2.format) (hitems : s1.items = s2.items)
    (harr : s1.TypeIs "array" = s2.TypeIs "array")
    (hint : s1.TypeIs "integer" = s2.TypeIs "integer")
    (hnum : s1.TypeIs "number" = s2.TypeIs "number")
    (hbool : s1.TypeIs "boolean" = s2.TypeIs "boolean")
    (hstr : s1.TypeIs "string" = s2.TypeIs "string") :
    oapiSchemaToGoTypeCoreS opts g s1 path out tMsg
      = oapiSchemaToGoTypeCoreS opts g s2 path out tMsg := by
  unfold oapiSchemaToGoTypeCoreS
  rw [hfmt, hitems, harr, hint, hnum, hbool, hstr]

/-- The paired dispatch under the same agreement plus agreeing nullable
flags. -/
theorem core_congr (opts : Options) (g : GenFn) (path : List String) (out : GSchema)
    (tMsg : List String) {s1 s2 : OSchema}
    (hfmt : s1.format = s2.format) (hitems : s1.items = s2.items)
    (hnull : s1.nullable = s2.nullable)
    (harr : s1.TypeIs "array" = s2.TypeIs "array")
    (hint : s1.TypeIs "integer" = s2.TypeIs "integer")
    (hnum : s1.TypeIs "number" = s2.TypeIs "number")
    (hbool : s1.TypeIs "boolean" = s2.TypeIs "boolean")
    (hstr : s1.TypeIs "string" = s2.TypeIs "string") :
    oapiSchemaToGoTypeCore opts g s1 path out tMsg
      = oapiSchemaToGoTypeCore opts g s2 path out tMsg := by
  unfold oapiSchemaToGoTypeCore
  rw [hnull, coreS_congr opts g path out tMsg hfmt hitems harr hint hnum hbool hstr]

/-- Containment in a type pair with null agrees with containment in the
singleton for any non-null type string. -/
theorem contains_pair_null (T c : String) (hcn : (c == "null") = false) :
    ([T, "null"].contains c) = ([T].contains c) := by
  simp only [List.contains, List.elem, hcn]

/-- C4: compiling a type set of one primitive T plus null produces exactly
the same result as compiling type T with the nullable flag forced true,
and the nullable flag is recorded (the result reports nullable true). -/
theorem c4_null_union_collapse (opts : Options) (fuel : Nat) (s : OSchema)
    (path : List String) (out : GSchema) (T : String) (h : T ≠ "null") :
    oapiSchemaToGoType opts fuel (s.withAttrs (fun a => { a with typ := [T, "null"] })) path out
      = oapiSchemaToGoType opts fuel
          (s.withAttrs (fun a => { a with typ := [T], nullable := true })) path out ∧
    (∀ r b, oapiSchemaToGoType opts fuel
        (s.withAttrs (fun a => { a with typ := [T, "null"] })) path out = .ok (r, b) → b = true) := by
  have hTne : (T != "null") = true := by simp [h]
  have hnT : ("null" == T) = false := beq_eq_false_iff_ne.mpr (Ne.symm h)
  have hasNullL : ([T, "null"].contains "null") = true := by
    simp only [List.contains, List.elem, hnT]
    simp
  have hasNullR : ([T].contains "null") = false := by
    simp only [List.contains, List.elem, hnT]
  have hfilterL : ([T, "null"].filter (fun t => t != "null")) = [T] := by
    simp only [List.filter, hTne]
    simp
  have hfilterR : ([T].filter (fun t => t != "null")) = [T] := by
    simp only [List.filter, hTne]
  set g := generateGoSchemaFuel opts fuel with hg
  set s1 := s.withAttrs (fun a => { a with typ := [T, "null"] }) with hs1
  set s2 := s.withAttrs (fun a => { a with typ := [T], nullable := true }) with hs2
  have htsL : s1.TypeSlice = [T, "null"] := by
    simp [hs1, OSchema.TypeSlice, OSchema.typ]
  have htsR : s2.TypeSlice = [T] := by
    simp [hs2, OSchema.TypeSlice, OSchema.typ]
  have hredL : oapiSchemaToGoTypeF opts g s1 path out
      = oapiSchemaToGoTypeCore opts g (s1.withAttrs (fun a => { a with nullable := true }))
          path out [T] := by
    simp only [oapiSchemaToGoTypeF, htsL, hasNullL, hfilterL]
    simp
  have hredR : oapiSchemaToGoTypeF opts g s2 path out
      = oapiSchemaToGoTypeCore opts g s2 path out [T] := by
    simp only [oapiSchemaToGoTypeF, htsR, hasNullR, hfilterR]
    simp
  have hcongr : oapiSchemaToGoTypeCore opts g (s1.withAttrs (fun a => { a with nullable := true }))
      path out [T] = oapiSchemaToGoTypeCore opts g s2 path out [T] := by
    apply core_congr
    · simp [hs1, hs2, OSchema.format]
    · simp [hs1, hs2]
    · simp [hs1, hs2, OSchema.nullable]
    · simp only [OSchema.TypeIs, OSchema.typ, hs1, hs2, OSchema.sattrs_withAttrs]
      exact contains_pair_null T "array" (by decide)
    · simp only [OSchema.TypeIs, OSchema.typ, hs1, hs2, OSchema.sattrs_withAttrs]
      exact contains_pair_null T "integer" (by decide)
    · simp only [OSchema.TypeIs, OSchema.typ, hs1, hs2, OSchema.sattrs_withAttrs]
      exact contains_pair_null T "number" (by decide)
    · simp only [OSchema.TypeIs, OSchema.typ, hs1, hs2, OSchema.sattrs_withAttrs]
      exact contains_pair_null T "boolean" (by decide)
    · simp only [OSchema.TypeIs, OSchema.typ, hs1, hs2, OSchema.sattrs_withAttrs]
      exact contains_pair_null T "string" (by decide)
  constructor
  · show oapiSchemaToGoTypeF opts g s1 path out = oapiSchemaToGoTypeF opts g s2 path out
    rw [hredL, hredR, hcongr]
  · intro r b hok
    have hok' : oapiSchemaToGoTypeCore opts g
        (s1.withAttrs (fun a => { a with nullable := true })) path out [T] = .ok (r, b) := by
      rw [← hredL]
      exact hok
    have := core_ok_nullable hok'
    simpa [OSchema.nullable] using this

def c4s : OSchema := .mk {} none none none none none none

/-- C4 witnessed at the primitive string on a concrete schema. -/
theorem c4_null_union_collapse_witness :
    ("string" : String) ≠ "null" ∧
    (oapiSchemaToGoType {} 1 (c4s.withAttrs (fun a => { a with typ := ["string", "null"] }))
        [] GSchema.zero
      = oapiSchemaToGoType {} 1
          (c4s.withAttrs (fun a => { a with typ := ["string"], nullable := true })) [] GSchema.zero ∧
    (∀ r b, oapiSchemaToGoType {} 1
        (c4s.withAttrs (fun a => { a with typ := ["string", "null"] })) [] GSchema.zero
        = .ok (r, b) → b = true)) :=
  ⟨by decide, c4_null_union_collapse {} 1 c4s [] GSchema.zero "string" (by decide)⟩

/-! ### C5: enums compile to defined (non-alias) types -/

def c5schema : OSchema := .mk { enum := [.str "a", .str "b"] } none none none none none none

/-- C5 counterexample: a schema with a non-empty enum list but no type at
all takes the untyped-object branch and compiles to an ALIAS of the
universal type, not to a named type. -/
theorem c5_counterexample :
    c5schema.enum.length > 0 ∧
    genOkProj (fun r => (r.1.goType, r.1.defineViaAlias))
      (generateGoSchema {} 1 (some (NewSchemaRef "" (some c5schema))) ["E"])
      = some ("interface{}", true) := by
  exact ⟨by decide, rfl⟩

/-- A successful run of the enum branch always reports a defined
(non-alias) type. -/
theorem enumBranch_alias_false {opts : Options} {g : GenFn} {schema : OSchema}
    {path : List String} {out : GSchema} {res : GenRes}
    (h : generateEnumBranch opts g schema path out = .ok res) :
    res.1.defineViaAlias = false := by
  unfold generateEnumBranch at h
  cases hx : oapiSchemaToGoTypeF opts g schema path out with
  | error e => rw [hx] at h; exact Except.noConfusion h
  | ok pr =>
    obtain ⟨out0, nullAfter⟩ := pr
    rw [hx] at h
    dsimp only at h
    split at h
    · split at h
      · exact Except.noConfusion h
      · simp only [Except.ok.injEq] at h
        subst h
        simp
    · simp only [Except.ok.injEq] at h
      subst h
      simp

/-- C5 amended: for a schema that actually reaches the enum branch (a
resolved non-reference value, no allOf, no type-override extension, a
non-empty type list that is not object-shaped, and a non-empty enum), the
compiled descriptor always has the define-via-alias flag false.  A
typeless enum schema instead takes the untyped-object branch and is
aliased, as the counterexample records. -/
theorem c5_enum_forced_named (opts : Options) (fuel : Nat) (r : ORef) (schema : OSchema)
    (path : List String) (res : GenRes)
    (hval : r.value = some schema)
    (href : IsGoTypeReference r.ref = false)
    (hallOf : schema.allOf = none)
    (hgotype : alookup schema.extensions extPropGoType = none)
    (htyp : schema.typ.length ≠ 0)
    (hobj : schema.TypeIs "object" = false)
    (henum : schema.enum.length > 0)
    (hok : generateGoSchemaFuel opts (fuel + 1) (some r) path = .ok res) :
    res.1.defineViaAlias = false := by
  simp only [generateGoSchemaFuel, hval] at hok
  unfold generateGoSchemaBody at hok
  have hcond : ((schema.TypeSlice.length == 0) || schema.TypeIs "object") = false := by
    rw [Bool.or_eq_false_iff]
    exact ⟨beq_eq_false_iff_ne.mpr (by simpa [OSchema.TypeSlice] using htyp), hobj⟩
  cases hskipext : alookup schema.extensions extPropGoTypeSkipOptionalPointer with
  | none =>
    rw [hskipext] at hok
    simp only [href, hallOf, hgotype, hcond, Bool.false_eq_true, if_false, henum, if_true] at hok
    exact enumBranch_alias_false hok
  | some v =>
    rw [hskipext] at hok
    cases hparse : extParsePropGoTypeSkipOptionalPointer v with
    | error e =>
      simp only [hparse, Except.mapError] at hok
      exact Except.noConfusion hok
    | ok bskip =>
      simp only [hparse, Except.mapError, href, hallOf, hgotype, hcond, Bool.false_eq_true,
        if_false, henum, if_true] at hok
      exact enumBranch_alias_false hok

def c5wval : OSchema := .mk { typ := ["string"], enum := [.str "a"] } none none none none none none

def c5wref : ORef := NewSchemaRef "" (some c5wval)

/-- C5 amended, witnessed on a concrete string enum. -/
theorem c5_enum_forced_named_witness :
    c5wref.value = some c5wval ∧ c5wval.typ.length ≠ 0 ∧ c5wval.enum.length > 0 ∧
    genOkProj (fun r => r.1.defineViaAlias)
      (generateGoSchemaFuel {} 2 (some c5wref) ["E"]) = some false := by
  refine ⟨rfl, by decide, by decide, ?_⟩
  obtain ⟨res, hok⟩ : ∃ res, generateGoSchemaFuel {} 2 (some c5wref) ["E"] = .ok res := ⟨_, rfl⟩
  have hres := c5_enum_forced_named {} 1 c5wref c5wval ["E"] res rfl (by decide) rfl rfl
    (by decide) (by decide) (by decide) hok
  rw [hok]
  simpa [genOkProj] using hres

/-! ### C6: no self-alias at the defining occurrence of a component -/

/-- C6: compiling a resolved component reference yields the referenced
spelling; the define-via-alias flag is false exactly when the current
path is the single-segment path equal to the component name (the
defining occurrence, where an alias would be the no-op self-alias), and
true at every other occurrence. -/
theorem c6_reference_alias (opts : Options) (fuel : Nat) (r : ORef) (schema : OSchema)
    (path : List String) (X RT : String)
    (hval : r.value = some schema)
    (hskip : alookup schema.extensions extPropGoTypeSkipOptionalPointer = none)
    (hgo : IsGoTypeReference r.ref = true)
    (hrt : RefPathToGoType r.ref = .ok RT)
    (hcomp : strContains r.ref "#/components/schemas/" = true)
    (hx : strTrimPre r.ref "#/components/schemas/" = X) :
    generateGoSchemaFuel opts (fuel + 1) (some r) path =
      .ok ((GSchema.base
        { goType := RT, refType := RT, description := schema.description,
          defineViaAlias := !(path.length == 1 && path.headD "" == X),
          skipOptionalPointer := opts.preferSkipOptionalPointer }).setOapiSchema (some schema),
        schema.nullable) := by
  simp only [generateGoSchemaFuel, hval]
  unfold generateGoSchemaBody
  rw [hskip]
  simp only [hgo, if_true, hrt, hcomp, hx]
  cases path <;> simp [GSchema.base]

def c6val : OSchema := .mk { description := "a pet" } none none none none none none

def c6ref : ORef := NewSchemaRef "#/components/schemas/Pet" (some c6val)

/-- C6, witnessed at the defining occurrence (path [Pet]): the alias flag
comes out false. -/
theorem c6_reference_alias_witness :
    c6ref.value = some c6val ∧
    IsGoTypeReference c6ref.ref = true ∧
    RefPathToGoType c6ref.ref = .ok "Pet" ∧
    strTrimPre c6ref.ref "#/components/schemas/" = "Pet" ∧
    generateGoSchemaFuel {} 1 (some c6ref) ["Pet"] =
      .ok ((GSchema.base
        { goType := "Pet", refType := "Pet", description := c6val.description,
          defineViaAlias := !((["Pet"] : List String).length == 1 && (["Pet"] : List String).headD "" == "Pet"),
          skipOptionalPointer := false }).setOapiSchema (some c6val),
        c6val.nullable) := by
  refine ⟨rfl, by decide, rfl, rfl, ?_⟩
  exact c6_reference_alias {} 0 c6ref c6val ["Pet"] "Pet" "Pet" rfl rfl (by decide) rfl
    (by decide) rfl

/-! ### C10: the completely untyped schema -/

/-- C10: a schema carrying no type, no properties, no additional
properties, no oneOf/anyOf (and, being completely untyped, no allOf and
no extensions) compiles to the universal type with the
skip-optional-pointer flag forced true, whatever the configuration; and
a property whose schema skips the optional pointer is never rendered
behind a pointer (its rendered type is the plain type declaration, or
the nullable wrapper under the nullable-type option). -/
theorem c10_untyped_universal (opts : Options) (fuel : Nat) (r : ORef) (schema : OSchema)
    (path : List String)
    (hval : r.value = some schema)
    (href : r.ref = "")
    (hext : schema.extensions = [])
    (htyp : schema.typ = [])
    (hprops : schema.propsLen = 0)
    (haddl : SchemaHasAdditionalProperties schema = false)
    (hanyOf : schema.anyOf = none)
    (honeOf : schema.oneOf = none)
    (hallOf : schema.allOf = none) :
    genOkProj (fun res => (res.1.goType, res.1.skipOptionalPointer, res.1.defineViaAlias))
      (generateGoSchemaFuel opts (fuel + 1) (some r) path)
      = some ("interface{}", true, true) ∧
    (∀ p : GProperty, p.schema.skipOptionalPointer = true →
      p.GoTypeDef opts = if opts.nullableType && p.nullable then
        "nullable.Nullable[" ++ p.schema.TypeDecl ++ "]" else p.schema.TypeDecl) := by
  constructor
  · simp only [generateGoSchemaFuel, hval]
    unfold generateGoSchemaBody
    rw [hext]
    simp only [alookup]
    have hgo : IsGoTypeReference r.ref = false := by
      rw [href]
      decide
    simp only [hgo, Bool.false_eq_true, if_false, hallOf]
    unfold generateObjectBranch xGoTypeNameWrap
    have htyp2 : schema.sattrs.typ = [] := htyp
    simp only [hext, alookup, hprops, haddl, hanyOf, honeOf, htyp, htyp2,
      OSchema.TypeSlice, OSchema.TypeIs, OSchema.typ]
    simp [genOkProj, Except.map, htyp2]
  · intro p hskip
    unfold GProperty.GoTypeDef
    rw [hskip]
    simp

def c10val : OSchema := .mk {} none none none none none none

def c10ref : ORef := NewSchemaRef "" (some c10val)

/-- C10, witnessed on a concrete empty schema with the skip-pointer
preference off and a concrete required property of that compiled type. -/
theorem c10_untyped_universal_witness :
    c10ref.value = some c10val ∧ c10val.typ = [] ∧
    (genOkProj (fun res => (res.1.goType, res.1.skipOptionalPointer, res.1.defineViaAlias))
      (generateGoSchemaFuel {} 1 (some c10ref) ["Blob"]) = some ("interface{}", true, true) ∧
    (∀ p : GProperty, p.schema.skipOptionalPointer = true →
      p.GoTypeDef {} = if ({} : Options).nullableType && p.nullable then
        "nullable.Nullable[" ++ p.schema.TypeDecl ++ "]" else p.schema.TypeDecl)) := by
  refine ⟨rfl, rfl, ?_⟩
  exact c10_untyped_universal {} 0 c10ref c10val ["Blob"] rfl rfl rfl rfl rfl rfl rfl rfl rfl

/-! ### C7: discriminator mapping completeness -/

/-- Keys of an insert-or-replace update are the old keys, with the new key
appended when absent. -/
theorem mem_akeys_aset {α : Type} (m : List (String × α)) (k x : String) (v : α)
    (hx : x ∈ akeys (aset m k v)) : x ∈ akeys m ∨ x = k := by
  induction m with
  | nil =>
    simp [aset, akeys] at hx
    exact Or.inr hx
  | cons hd tl ih =>
    obtain ⟨k', v'⟩ := hd
    by_cases hk : k' = k
    · have hb : (k' == k) = true := beq_iff_eq.mpr hk
      simp only [aset, hb, if_true, akeys, List.map_cons, List.mem_cons] at hx
      simp only [akeys, List.map_cons, List.mem_cons]
      rcases hx with h | h
      · exact Or.inr h
      · exact Or.inl (Or.inr h)
    · have hb : (k' == k) = false := beq_eq_false_iff_ne.mpr hk
      simp only [aset, hb, Bool.false_eq_true, if_false, akeys, List.map_cons, List.mem_cons] at hx
      simp only [akeys, List.map_cons, List.mem_cons]
      rcases hx with h | h
      · exact Or.inl (Or.inl h)
      · rcases ih h with h2 | h2
        · exact Or.inl (Or.inr h2)
        · exact Or.inr h2

/-- Insert-or-replace preserves distinctness of the keys. -/
theorem akeys_aset_nodup {α : Type} (m : List (String × α)) (k : String) (v : α)
    (h : (akeys m).Nodup) : (akeys (aset m k v)).Nodup := by
  induction m with
  | nil => simp [aset, akeys]
  | cons hd tl ih =>
    obtain ⟨k', v'⟩ := hd
    simp only [akeys, List.map_cons, List.nodup_cons] at h
    obtain ⟨hnotin, hnd⟩ := h
    by_cases hk : k' = k
    · have hb : (k' == k) = true := beq_iff_eq.mpr hk
      simp only [aset, hb, if_true, akeys, List.map_cons, List.nodup_cons]
      subst hk
      exact ⟨hnotin, hnd⟩
    · have hb : (k' == k) = false := beq_eq_false_iff_ne.mpr hk
      simp only [aset, hb, Bool.false_eq_true, if_false, akeys, List.map_cons, List.nodup_cons]
      refine ⟨?_, ih hnd⟩
      intro hmem
      rcases mem_akeys_aset tl k k' v hmem with h2 | h2
      · exact hnotin h2
      · exact hk h2

/-- Absorbing a variant into the output schema does not touch the output
discriminator. -/
theorem unionAbsorb_fst_disc (inline : Bool) (n : String) (out es : GSchema) :
    (unionAbsorb inline n out es).1.attrs.discriminator = out.attrs.discriminator := by
  unfold unionAbsorb
  repeat' split
  all_goals simp

/-- Deduplicated member insertion does not touch the discriminator. -/
theorem unionAddElement_disc (out : GSchema) (t : String) :
    (unionAddElement out t).attrs.discriminator = out.attrs.discriminator := by
  unfold unionAddElement
  split
  · rfl
  · simp

/-- Writing a discriminator-mapping entry keeps the mapping keys
distinct. -/
theorem discSet_disc_nodup {s : GSchema} {dd : GDisc} (hd : s.attrs.discriminator = some dd)
    (hnod : (akeys dd.mapping).Nodup) (k v : String) :
    ∀ dd', (s.discSet k v).attrs.discriminator = some dd' → (akeys dd'.mapping).Nodup := by
  intro dd' h
  simp only [GSchema.discSet, GSchema.attrs_withAttrs, hd, Option.some.injEq] at h
  subst h
  exact akeys_aset_nodup _ _ _ hnod

/-- A successful union step under a declared discriminator keeps the
output discriminator present with distinct mapping keys. -/
theorem unionStep_disc_inv {opts : Options} {g : GenFn} {d : DiscIn} {path : List String}
    {element : ORef} {i : Nat} {out : GSchema} {refMap : List (String × String)}
    {used : List String} {st : GSchema × List (String × String) × List String}
    (h : unionStep opts g (some d) path element i out refMap used = .ok st)
    {dd : GDisc} (hd : out.discriminator = some dd)
    (hnod : (akeys dd.mapping).Nodup) :
    ∀ dd', st.1.discriminator = some dd' → (akeys dd'.mapping).Nodup := by
  have hd' : out.attrs.discriminator = some dd := hd
  unfold unionStep at h
  cases hg : g (some element) (path ++ [toString i]) with
  | error e =>
    simp only [hg] at h
    exact Except.noConfusion h
  | ok pr => ?_
  obtain ⟨es0, b0⟩ := pr
  simp only [hg] at h
  by_cases hambig : (d.mapping.length != 0 && element.ref == "") = true
  · rw [if_pos hambig] at h
    exact Except.noConfusion h
  · rw [if_neg hambig] at h
    simp only [Except.ok.injEq] at h
    subst h
    intro dd' hdd'
    simp only [GSchema.discriminator_eq, unionAddElement_disc] at hdd'
    exact discSet_disc_nodup (by rw [unionAbsorb_fst_disc]; exact hd') hnod _ _ dd' hdd'

/-- A successful union step keeps the discriminator present. -/
theorem unionStep_disc_isSome {opts : Options} {g : GenFn} {d : DiscIn} {path : List String}
    {element : ORef} {i : Nat} {out : GSchema} {refMap : List (String × String)}
    {used : List String} {st : GSchema × List (String × String) × List String}
    (h : unionStep opts g (some d) path element i out refMap used = .ok st)
    (hsome : out.discriminator.isSome = true) : st.1.discriminator.isSome = true := by
  unfold unionStep at h
  cases hg : g (some element) (path ++ [toString i]) with
  | error e =>
    simp only [hg] at h
    exact Except.noConfusion h
  | ok pr => ?_
  obtain ⟨es0, b0⟩ := pr
  simp only [hg] at h
  by_cases hambig : (d.mapping.length != 0 && element.ref == "") = true
  · rw [if_pos hambig] at h
    exact Except.noConfusion h
  · rw [if_neg hambig] at h
    simp only [Except.ok.injEq] at h
    subst h
    simp only [GSchema.discriminator_eq] at hsome
    simp only [GSchema.discriminator_eq, unionAddElement_disc, GSchema.discSet,
      GSchema.attrs_withAttrs, unionAbsorb_fst_disc]
    cases hdo : out.attrs.discriminator with
    | none =>
      rw [hdo] at hsome
      simp at hsome
    | some dd => simp

/-- The per-variant loop keeps the discriminator present with distinct
mapping keys. -/
theorem generateUnionGo_disc_inv {opts : Options} {g : GenFn} {d : DiscIn} {path : List String}
    (elements : List ORef) :
    ∀ (i : Nat) (out : GSchema) (refMap : List (String × String)) (used : List String)
      (o2 : GSchema),
      generateUnionGo opts g (some d) path elements i out refMap used = .ok o2 →
      (∀ dd : GDisc, out.discriminator = some dd → (akeys dd.mapping).Nodup) →
      out.discriminator.isSome = true →
      (∀ dd : GDisc, o2.discriminator = some dd → (akeys dd.mapping).Nodup) ∧
        o2.discriminator.isSome = true := by
  induction elements with
  | nil =>
    intro i out refMap used o2 h hinv hsome
    simp only [generateUnionGo, Except.ok.injEq] at h
    subst h
    exact ⟨hinv, hsome⟩
  | cons element rest ih =>
    intro i out refMap used o2 h hinv hsome
    simp only [generateUnionGo] at h
    cases hs : unionStep opts g (some d) path element i out refMap used with
    | error e =>
      rw [hs] at h
      exact Except.noConfusion h
    | ok st =>
      obtain ⟨out2, refMap2, used2⟩ := st
      simp only [hs] at h
      obtain ⟨dd, hdd⟩ := Option.isSome_iff_exists.mp hsome
      exact ih (i + 1) out2 refMap2 used2 o2 h
        (unionStep_disc_inv hs hdd (hinv dd hdd))
        (unionStep_disc_isSome hs hsome)

/-- With explicit mapping entries present, an inline variant makes the
union step fail. -/
theorem unionStep_inline_ambiguous (opts : Options) (g : GenFn) {d : DiscIn}
    (path : List String) {element : ORef} (i : Nat) (out : GSchema)
    (refMap : List (String × String)) (used : List String)
    (hm : d.mapping ≠ []) (hin : element.ref = "") :
    exceptIsOk (unionStep opts g (some d) path element i out refMap used) = false := by
  have hc : (d.mapping.length != 0 && element.ref == "") = true := by
    rw [Bool.and_eq_true]
    refine ⟨?_, beq_iff_eq.mpr hin⟩
    exact bne_iff_ne.mpr (fun h0 => hm (List.length_eq_zero.mp h0))
  unfold unionStep
  cases hg : g (some element) (path ++ [toString i]) with
  | error e => simp [hg, exceptIsOk]
  | ok pr =>
    obtain ⟨es0, b0⟩ := pr
    simp only [hg]
    rw [if_pos hc]
    rfl

/-- With explicit mapping entries present, a variant list containing an
inline schema never lets the per-variant loop succeed. -/
theorem generateUnionGo_inline_err (opts : Options) (g : GenFn) {d : DiscIn}
    (path : List String) (hm : d.mapping ≠ []) (elements : List ORef) :
    ∀ (i : Nat) (out : GSchema) (refMap : List (String × String)) (used : List String),
      (∃ e ∈ elements, e.ref = "") →
      exceptIsOk (generateUnionGo opts g (some d) path elements i out refMap used) = false := by
  induction elements with
  | nil =>
    intro i out refMap used hex
    simp at hex
  | cons element rest ih =>
    intro i out refMap used hex
    simp only [generateUnionGo]
    cases hs : unionStep opts g (some d) path element i out refMap used with
    | error e => simp [exceptIsOk]
    | ok st =>
      obtain ⟨out2, refMap2, used2⟩ := st
      simp only [hs]
      rcases hex with ⟨e, he, hre⟩
      rcases List.mem_cons.mp he with rfl | hmem
      · have hfail := unionStep_inline_ambiguous opts g path i out refMap used hm hre
        rw [hs] at hfail
        simp [exceptIsOk] at hfail
      · exact ih (i + 1) out2 refMap2 used2 ⟨e, hmem, hre⟩

/-- C7: for a oneOf/anyOf union compiled with a declared discriminator
over N variants, a successful generation carries a discriminator mapping
with exactly N pairwise-distinct entries; when the per-variant loop
succeeds, the only remaining failure is exactly the
"discriminator: not all schemas were mapped" error; and explicit mapping
entries combined with an inline (reference-free) variant make generation
fail. -/
theorem c7_discriminator_mapping (opts : Options) (g : GenFn) (outSchema : GSchema)
    (elements : List ORef) (d : DiscIn) (path : List String) :
    (∀ res, generateUnionF opts g outSchema elements (some d) path = .ok res →
      ∃ dd, res.discriminator = some dd ∧ dd.mapping.length = elements.length ∧
        (akeys dd.mapping).Nodup)
    ∧ (∀ gout,
        generateUnionGo opts g (some d) path elements 0
          (outSchema.withAttrs (fun a => { a with discriminator := some ⟨[], d.propertyName⟩ }))
          [] [] = .ok gout →
        generateUnionF opts g outSchema elements (some d) path = .ok gout ∨
          generateUnionF opts g outSchema elements (some d) path =
            .error "discriminator: not all schemas were mapped")
    ∧ (d.mapping ≠ [] → (∃ e ∈ elements, e.ref = "") →
        exceptIsOk (generateUnionF opts g outSchema elements (some d) path) = false) := by
  have hinv0 : ∀ dd : GDisc,
      (outSchema.withAttrs
        (fun a => { a with discriminator := some ⟨[], d.propertyName⟩ })).discriminator =
        some dd → (akeys dd.mapping).Nodup := by
    intro dd hdd
    simp only [GSchema.discriminator_eq, GSchema.attrs_withAttrs, Option.some.injEq] at hdd
    subst hdd
    simp [akeys]
  have hsome0 :
      (outSchema.withAttrs
        (fun a => { a with discriminator := some ⟨[], d.propertyName⟩ })).discriminator.isSome =
        true := by
    simp [GSchema.discriminator_eq, GSchema.attrs_withAttrs]
  refine ⟨?_, ?_, ?_⟩
  · intro res hok
    simp only [generateUnionF] at hok
    cases hgo : generateUnionGo opts g (some d) path elements 0
        (outSchema.withAttrs (fun a => { a with discriminator := some ⟨[], d.propertyName⟩ }))
        [] [] with
    | error e =>
      rw [hgo] at hok
      exact Except.noConfusion hok
    | ok gout =>
      simp only [hgo] at hok
      obtain ⟨hinv, hsomeg⟩ :=
        generateUnionGo_disc_inv elements 0 _ [] [] gout hgo hinv0 hsome0
      cases hgd : gout.discriminator with
      | none =>
        rw [hgd] at hsomeg
        simp at hsomeg
      | some dd =>
        simp only [hgd] at hok
        by_cases hlen : (dd.mapping.length != elements.length) = true
        · rw [if_pos hlen] at hok
          exact Except.noConfusion hok
        · rw [if_neg hlen] at hok
          simp only [Except.ok.injEq] at hok
          subst hok
          simp only [bne_iff_ne, ne_eq, not_not] at hlen
          exact ⟨dd, hgd, hlen, hinv dd hgd⟩
  · intro gout hgo
    simp only [generateUnionF, hgo]
    cases hgd : gout.discriminator with
    | none =>
      simp only [hgd]
      exact Or.inl trivial
    | some dd =>
      simp only [hgd]
      by_cases hlen : (dd.mapping.length != elements.length) = true
      · rw [if_pos hlen]
        exact Or.inr rfl
      · rw [if_neg hlen]
        exact Or.inl rfl
  · intro hm hex
    have hfail := generateUnionGo_inline_err opts g path hm elements 0
      (outSchema.withAttrs (fun a => { a with discriminator := some ⟨[], d.propertyName⟩ }))
      [] [] hex
    simp only [generateUnionF]
    cases hgo : generateUnionGo opts g (some d) path elements 0
        (outSchema.withAttrs (fun a => { a with discriminator := some ⟨[], d.propertyName⟩ }))
        [] [] with
    | error e => simp [hgo, exceptIsOk]
    | ok gout =>
      rw [hgo] at hfail
      simp [exceptIsOk] at hfail

/-- C7 witness variant: an inline object schema. -/
def c7val : OSchema := .mk { typ := ["object"] } none none none none none none

/-- C7 witness variant reference: inline, no target. -/
def c7inline : ORef := NewSchemaRef "" (some c7val)

/-- C7 witness discriminator input with one explicit mapping entry. -/
def c7d : DiscIn := ⟨"kind", [("a", "#/components/schemas/A")]⟩

/-- C7, witnessed: a union with an explicit mapping entry and an inline
variant never generates successfully. -/
theorem c7_discriminator_mapping_witness :
    exceptIsOk (generateUnionF {} (generateGoSchemaFuel {} 4) GSchema.zero [c7inline]
      (some c7d) ["U"]) = false :=
  (c7_discriminator_mapping {} (generateGoSchemaFuel {} 4) GSchema.zero [c7inline] c7d
    ["U"]).2.2 (by decide) ⟨c7inline, by simp, rfl⟩

/-! ### C2: pruning unused components -/

/-- The schema components of a document, empty when absent. -/
def tdocSchemas (t : TDoc) : List (String × ORef) :=
  match t.components with
  | none => []
  | some c => c.schemas

def tdocParameters (t : TDoc) : List (String × ParameterRefM) :=
  match t.components with
  | none => []
  | some c => c.parameters

def tdocHeaders (t : TDoc) : List (String × HeaderRefM) :=
  match t.components with
  | none => []
  | some c => c.headers

def tdocRequestBodies (t : TDoc) : List (String × RequestBodyRefM) :=
  match t.components with
  | none => []
  | some c => c.requestBodies

def tdocResponses (t : TDoc) : List (String × ResponseRefM) :=
  match t.components with
  | none => []
  | some c => c.responses

def tdocSecuritySchemes (t : TDoc) : List (String × SecuritySchemeRefM) :=
  match t.components with
  | none => []
  | some c => c.securitySchemes

def tdocExamples (t : TDoc) : List (String × ExampleRefM) :=
  match t.components with
  | none => []
  | some c => c.examples

def tdocLinks (t : TDoc) : List (String × LinkRefM) :=
  match t.components with
  | none => []
  | some c => c.links

def tdocCallbacks (t : TDoc) : List (String × CallbackRefM) :=
  match t.components with
  | none => []
  | some c => c.callbacks

/-- A fold whose step only grows the accumulator keeps every member. -/
theorem foldl_step_mem {α : Type} (f : List String → α → List String)
    (hf : ∀ refs a x, x ∈ refs → x ∈ f refs a) (l : List α) :
    ∀ (refs0 : List String) (x : String), x ∈ refs0 → x ∈ l.foldl f refs0 := by
  induction l with
  | nil => intro refs0 x hx; exact hx
  | cons hd tl ih => intro refs0 x hx; exact ih (f refs0 hd) x (hf refs0 hd x hx)

/-- The schema-marking fold of findComponentRefs records the canonical
reference of every named schema component. -/
theorem schemaFix_mem (l : List (String × ORef)) :
    ∀ (refs0 : List String), ∀ kv ∈ l,
      ("#/components/schemas/" ++ kv.1) ∈ l.foldl (fun refs (schemaName, _) =>
        let schemaRef := "#/components/schemas/" ++ schemaName
        if refs.contains schemaRef then refs else refs ++ [schemaRef]) refs0 := by
  induction l with
  | nil =>
    intro refs0 kv hkv
    simp at hkv
  | cons hd tl ih =>
    intro refs0 kv hkv
    obtain ⟨hn, hv⟩ := hd
    simp only [List.foldl_cons]
    rcases List.mem_cons.mp hkv with rfl | hmem
    · refine foldl_step_mem _ ?_ tl _ _ ?_
      · intro refs a x hx
        obtain ⟨an, av⟩ := a
        dsimp only
        split
        · exact hx
        · exact List.mem_append_left _ hx
      · dsimp only
        split
        · rename_i hcond
          first
          | exact hcond
          | exact List.mem_of_elem_eq_true hcond
        · exact List.mem_append_right _ (List.mem_singleton.mpr rfl)
    · exact ih _ kv hmem

/-- findComponentRefs records the canonical reference of every named
schema component (the temporary over-reporting fix). -/
theorem findComponentRefs_schema_mem (wfuel : Nat) (t : TDoc) :
    ∀ kv ∈ tdocSchemas t,
      stringInSlice ("#/components/schemas/" ++ kv.1) (findComponentRefs wfuel t) = true := by
  intro kv hkv
  cases hc : t.components with
  | none =>
    rw [tdocSchemas, hc] at hkv
    simp at hkv
  | some c =>
    rw [tdocSchemas, hc] at hkv
    simp only [findComponentRefs, hc, stringInSlice]
    exact List.elem_iff.mpr (schemaFix_mem c.schemas _ kv hkv)

/-- One prune pass never deletes a schema component. -/
theorem prunePass_schemas (wfuel : Nat) (t : TDoc) :
    tdocSchemas (prunePass wfuel t).1 = tdocSchemas t := by
  cases hc : t.components with
  | none => simp [prunePass, removeOrphanedComponents, tdocSchemas, hc]
  | some c =>
    simp only [prunePass, removeOrphanedComponents, tdocSchemas, hc]
    apply List.filter_eq_self.mpr
    intro kv hkv
    have := findComponentRefs_schema_mem wfuel t kv (by rw [tdocSchemas, hc]; exact hkv)
    exact this

/-- One prune pass never touches the security-scheme components. -/
theorem prunePass_security (wfuel : Nat) (t : TDoc) :
    tdocSecuritySchemes (prunePass wfuel t).1 = tdocSecuritySchemes t := by
  cases hc : t.components with
  | none => simp [prunePass, removeOrphanedComponents, tdocSecuritySchemes, hc]
  | some c => simp [prunePass, removeOrphanedComponents, tdocSecuritySchemes, hc]

/-- Deleting orphans splits the component count into survivors plus
deletions. -/
theorem removeOrphaned_count (t : TDoc) (refs : List String) :
    componentCount (removeOrphanedComponents t refs).1 + (removeOrphanedComponents t refs).2 =
      componentCount t := by
  cases hc : t.components with
  | none => simp [removeOrphanedComponents, componentCount, hc]
  | some c =>
    simp only [removeOrphanedComponents, componentCount, hc]
    have h1 := List.length_filter_le
      (fun kv => stringInSlice ("#/components/schemas/" ++ kv.1) refs) c.schemas
    have h2 := List.length_filter_le
      (fun kv => stringInSlice ("#/components/parameters/" ++ kv.1) refs) c.parameters
    have h3 := List.length_filter_le
      (fun kv => stringInSlice ("#/components/requestBodies/" ++ kv.1) refs) c.requestBodies
    have h4 := List.length_filter_le
      (fun kv => stringInSlice ("#/components/responses/" ++ kv.1) refs) c.responses
    have h5 := List.length_filter_le
      (fun kv => stringInSlice ("#/components/headers/" ++ kv.1) refs) c.headers
    have h6 := List.length_filter_le
      (fun kv => stringInSlice ("#/components/examples/" ++ kv.1) refs) c.examples
    have h7 := List.length_filter_le
      (fun kv => stringInSlice ("#/components/links/" ++ kv.1) refs) c.links
    have h8 := List.length_filter_le
      (fun kv => stringInSlice ("#/components/callbacks/" ++ kv.1) refs) c.callbacks
    omega

/-- One prune pass splits the component count into survivors plus
deletions. -/
theorem prunePass_count (wfuel : Nat) (t : TDoc) :
    componentCount (prunePass wfuel t).1 + (prunePass wfuel t).2 = componentCount t :=
  removeOrphaned_count t (findComponentRefs wfuel t)

/-- With loop fuel above the component count, the prune loop ends at a
fixed point: one further pass deletes nothing. -/
theorem pruneLoop_fixed (wfuel : Nat) :
    ∀ (n : Nat) (t : TDoc), componentCount t < n →
      (prunePass wfuel (pruneLoop wfuel n t)).2 = 0 := by
  intro n
  induction n with
  | zero =>
    intro t h
    exact absurd h (Nat.not_lt_zero _)
  | succ n ih =>
    intro t h
    cases hp : prunePass wfuel t with
    | mk t2 c2 =>
      simp only [pruneLoop, hp]
      by_cases hcr : c2 < 1
      · rw [if_pos hcr]
        simp only [hp]
        omega
      · rw [if_neg hcr]
        have hcount := prunePass_count wfuel t
        simp only [hp] at hcount
        exact ih t2 (by omega)

/-- Schema components survive the whole prune loop. -/
theorem pruneLoop_schemas (wfuel : Nat) :
    ∀ (n : Nat) (t : TDoc), tdocSchemas (pruneLoop wfuel n t) = tdocSchemas t := by
  intro n
  induction n with
  | zero => intro t; rfl
  | succ n ih =>
    intro t
    cases hp : prunePass wfuel t with
    | mk t2 c2 =>
      simp only [pruneLoop, hp]
      by_cases hcr : c2 < 1
      · rw [if_pos hcr]
      · rw [if_neg hcr]
        have h2 := prunePass_schemas wfuel t
        simp only [hp] at h2
        rw [ih t2, h2]

/-- Security-scheme components survive the whole prune loop. -/
theorem pruneLoop_security (wfuel : Nat) :
    ∀ (n : Nat) (t : TDoc), tdocSecuritySchemes (pruneLoop wfuel n t) = tdocSecuritySchemes t := by
  intro n
  induction n with
  | zero => intro t; rfl
  | succ n ih =>
    intro t
    cases hp : prunePass wfuel t with
    | mk t2 c2 =>
      simp only [pruneLoop, hp]
      by_cases hcr : c2 < 1
      · rw [if_pos hcr]
      · rw [if_neg hcr]
        have h2 := prunePass_security wfuel t
        simp only [hp] at h2
        rw [ih t2, h2]

/-- A pass that deletes nothing proves every surviving prunable component
of every non-schema kind has its canonical reference recorded. -/
theorem removeOrphaned_zero_mem (t : TDoc) (refs : List String)
    (h : (removeOrphanedComponents t refs).2 = 0) :
    (∀ kv ∈ tdocParameters t, stringInSlice ("#/components/parameters/" ++ kv.1) refs = true) ∧
    (∀ kv ∈ tdocRequestBodies t,
      stringInSlice ("#/components/requestBodies/" ++ kv.1) refs = true) ∧
    (∀ kv ∈ tdocResponses t, stringInSlice ("#/components/responses/" ++ kv.1) refs = true) ∧
    (∀ kv ∈ tdocHeaders t, stringInSlice ("#/components/headers/" ++ kv.1) refs = true) ∧
    (∀ kv ∈ tdocExamples t, stringInSlice ("#/components/examples/" ++ kv.1) refs = true) ∧
    (∀ kv ∈ tdocLinks t, stringInSlice ("#/components/links/" ++ kv.1) refs = true) ∧
    (∀ kv ∈ tdocCallbacks t, stringInSlice ("#/components/callbacks/" ++ kv.1) refs = true) := by
  cases hc : t.components with
  | none =>
    simp [tdocParameters, tdocRequestBodies, tdocResponses, tdocHeaders, tdocExamples,
      tdocLinks, tdocCallbacks, hc]
  | some c =>
    simp only [removeOrphanedComponents, hc] at h
    simp only [tdocParameters, tdocRequestBodies, tdocResponses, tdocHeaders, tdocExamples,
      tdocLinks, tdocCallbacks, hc]
    have h2 := List.length_filter_le
      (fun kv => stringInSlice ("#/components/parameters/" ++ kv.1) refs) c.parameters
    have h3 := List.length_filter_le
      (fun kv => stringInSlice ("#/components/requestBodies/" ++ kv.1) refs) c.requestBodies
    have h4 := List.length_filter_le
      (fun kv => stringInSlice ("#/components/responses/" ++ kv.1) refs) c.responses
    have h5 := List.length_filter_le
      (fun kv => stringInSlice ("#/components/headers/" ++ kv.1) refs) c.headers
    have h6 := List.length_filter_le
      (fun kv => stringInSlice ("#/components/examples/" ++ kv.1) refs) c.examples
    have h7 := List.length_filter_le
      (fun kv => stringInSlice ("#/components/links/" ++ kv.1) refs) c.links
    have h8 := List.length_filter_le
      (fun kv => stringInSlice ("#/components/callbacks/" ++ kv.1) refs) c.callbacks
    refine ⟨?_, ?_, ?_, ?_, ?_, ?_, ?_⟩
    · exact List.filter_eq_self.mp
        ((List.filter_sublist c.parameters).eq_of_length (by omega))
    · exact List.filter_eq_self.mp
        ((List.filter_sublist c.requestBodies).eq_of_length (by omega))
    · exact List.filter_eq_self.mp
        ((List.filter_sublist c.responses).eq_of_length (by omega))
    · exact List.filter_eq_self.mp
        ((List.filter_sublist c.headers).eq_of_length (by omega))
    · exact List.filter_eq_self.mp
        ((List.filter_sublist c.examples).eq_of_length (by omega))
    · exact List.filter_eq_self.mp
        ((List.filter_sublist c.links).eq_of_length (by omega))
    · exact List.filter_eq_self.mp
        ((List.filter_sublist c.callbacks).eq_of_length (by omega))

/-- C2 counterexample document: a single schema component Foo that is
referenced from nowhere. -/
def c2fooVal : OSchema := .mk { nodeId := 1, typ := ["object"] } none none none none none none

def c2foo : ORef := NewSchemaRef "" (some c2fooVal)

def c2doc : TDoc := { paths := some [], components := some { schemas := [("Foo", c2foo)] } }

/-- C2 counterexample: the reachability walk of a document whose only
component is the unreferenced schema Foo records nothing, so the
canonical reference of Foo is not recorded, yet Foo survives pruning to
the fixed point: orphaned schema components are never deleted (the
temporary fix in findComponentRefs marks every named schema as
referenced). -/
theorem c2_counterexample :
    walkSwagger 3 c2doc = [] ∧
    stringInSlice "#/components/schemas/Foo" (walkSwagger 3 c2doc) = false ∧
    tdocSchemas (pruneUnusedComponents 3 c2doc) = [("Foo", c2foo)] :=
  ⟨rfl, rfl, rfl⟩

/-- C2 amended: pruning iterates until a pass deletes zero entries, and at
the fixed point every surviving parameter, request-body, response, header,
example, link and callback component has its canonical reference recorded
by findComponentRefs; security-scheme components are never deleted — but
schema components are also never deleted, whether referenced or not,
because findComponentRefs marks every named schema as referenced before
orphans are removed. -/
theorem c2_prune_fixed_point (wfuel : Nat) (t : TDoc) :
    (prunePass wfuel (pruneUnusedComponents wfuel t)).2 = 0 ∧
    tdocSecuritySchemes (pruneUnusedComponents wfuel t) = tdocSecuritySchemes t ∧
    tdocSchemas (pruneUnusedComponents wfuel t) = tdocSchemas t ∧
    ((∀ kv ∈ tdocParameters (pruneUnusedComponents wfuel t),
        stringInSlice ("#/components/parameters/" ++ kv.1)
          (findComponentRefs wfuel (pruneUnusedComponents wfuel t)) = true) ∧
      (∀ kv ∈ tdocRequestBodies (pruneUnusedComponents wfuel t),
        stringInSlice ("#/components/requestBodies/" ++ kv.1)
          (findComponentRefs wfuel (pruneUnusedComponents wfuel t)) = true) ∧
      (∀ kv ∈ tdocResponses (pruneUnusedComponents wfuel t),
        stringInSlice ("#/components/responses/" ++ kv.1)
          (findComponentRefs wfuel (pruneUnusedComponents wfuel t)) = true) ∧
      (∀ kv ∈ tdocHeaders (pruneUnusedComponents wfuel t),
        stringInSlice ("#/components/headers/" ++ kv.1)
          (findComponentRefs wfuel (pruneUnusedComponents wfuel t)) = true) ∧
      (∀ kv ∈ tdocExamples (pruneUnusedComponents wfuel t),
        stringInSlice ("#/components/examples/" ++ kv.1)
          (findComponentRefs wfuel (pruneUnusedComponents wfuel t)) = true) ∧
      (∀ kv ∈ tdocLinks (pruneUnusedComponents wfuel t),
        stringInSlice ("#/components/links/" ++ kv.1)
          (findComponentRefs wfuel (pruneUnusedComponents wfuel t)) = true) ∧
      (∀ kv ∈ tdocCallbacks (pruneUnusedComponents wfuel t),
        stringInSlice ("#/components/callbacks/" ++ kv.1)
          (findComponentRefs wfuel (pruneUnusedComponents wfuel t)) = true)) := by
  have hfix : (prunePass wfuel (pruneUnusedComponents wfuel t)).2 = 0 :=
    pruneLoop_fixed wfuel (componentCount t + 1) t (Nat.lt_succ_self _)
  refine ⟨hfix, pruneLoop_security wfuel _ t, pruneLoop_schemas wfuel _ t, ?_⟩
  exact removeOrphaned_zero_mem (pruneUnusedComponents wfuel t)
    (findComponentRefs wfuel (pruneUnusedComponents wfuel t)) hfix

/-- C2 witness document: a referenced parameter P and an unreferenced
parameter Q. -/
def c2p : ParameterRefM := { value := some {} }

def c2wdoc : TDoc :=
  { paths := some [("/x", .mk [{ ref := "#/components/parameters/P" }] [])],
    components := some { parameters := [("P", c2p), ("Q", c2p)] } }

/-- C2 amended, witnessed: on the concrete document the fixed point is
reached, schemas and security schemes are untouched, and the surviving
parameter P has its reference recorded. -/
theorem c2_prune_fixed_point_witness :
    (prunePass 3 (pruneUnusedComponents 3 c2wdoc)).2 = 0 ∧
    stringInSlice "#/components/parameters/P"
      (findComponentRefs 3 (pruneUnusedComponents 3 c2wdoc)) = true :=
  ⟨(c2_prune_fixed_point 3 c2wdoc).1,
    (c2_prune_fixed_point 3 c2wdoc).2.2.2.1 ("P", c2p) (by
      have hp : tdocParameters (pruneUnusedComponents 3 c2wdoc) = [("P", c2p)] := rfl
      rw [hp]
      exact List.mem_singleton.mpr rfl)⟩

end Oapi
